import Mathlib

/-!
Shallow embedding of the falavox-server Session & Credential Orchestrator:
the OAuth token cache (`PalabraOAuthService`), the per-channel session
lifecycle manager (`PalabraSessionService`) and the Agora task client
(`PalabraAgoraService`), translated from
`src/services/palabraOAuthService.js` and the Agora service source.

Times are integers (JavaScript millisecond timestamps).  Every network
round trip is an oracle argument (an `Except`-valued outcome supplied by
the environment), and each operation additionally reports how many
outbound requests it issued so that "no network call" claims are
statable.  JavaScript truthiness checks on strings and numbers
(`if (!x)`) are modelled explicitly: `""` and `0` are falsy.
-/

namespace Falavox

/-- State of `PalabraOAuthService`: the fields `this.cachedToken` and
`this.tokenExpiry`, both initialised to `null`. -/
structure OAuthState where
  cachedToken : Option String
  tokenExpiry : Option Int
  deriving Repr, DecidableEq

/-- The empty cache set up by the constructor (`cachedToken = null`,
`tokenExpiry = null`). -/
def OAuthState.initial : OAuthState := ⟨none, none⟩

/-- Body of the provider's token endpoint response:
`{access_token, expires_in}` (seconds). -/
structure TokenResponse where
  access_token : String
  expires_in : Int
  deriving Repr, DecidableEq

/-- The guard of `getValidToken`, line 36 of the source:
`this.cachedToken && this.tokenExpiry && Date.now() < this.tokenExpiry`.
JavaScript `&&` treats `""` and `0` as falsy, so those cases are spelled
out. -/
def cacheValid (st : OAuthState) (now : Int) : Bool :=
  match st.cachedToken, st.tokenExpiry with
  | some tok, some exp => decide (tok ≠ "") && decide (exp ≠ 0) && decide (now < exp)
  | _, _ => false

/-- The safety margin subtracted when caching a token:
`5 * 60 * 1000` milliseconds (five minutes). -/
def safetyMargin : Int := 5 * 60 * 1000

/-- Embedding of `PalabraOAuthService.requestNewToken`.  `available`
is `isAvailable()` (both OAuth credentials configured); `wire` is the
outcome of the `axios.post` to the token URL.  Returns the result
together with the number of outbound token requests issued.
Unconfigured service fails before any network call; a 2xx body with a
falsy `access_token` is rejected (`!response.data.access_token`). -/
def requestNewToken (available : Bool) (wire : Except String TokenResponse) :
    Except String TokenResponse × Nat :=
  if !available then
    (Except.error "OAuth service is not configured", 0)
  else
    match wire with
    | Except.error e => (Except.error e, 1)
    | Except.ok r =>
        if r.access_token = "" then
          (Except.error "Invalid token response from Palabra OAuth", 1)
        else
          (Except.ok r, 1)

/-- Result of one `getValidToken` call: the value returned or the error
thrown, the cache state afterwards, and how many outbound token
requests the call issued. -/
structure TokenCallResult where
  result : Except String String
  state : OAuthState
  requests : Nat
  deriving Repr

/-- Embedding of `PalabraOAuthService.getValidToken` (lines 33-63).
If the cached token is valid it is returned with no network traffic.
Otherwise `requestNewToken` runs; on success the token is cached with
expiry `now + expires_in * 1000 - safetyMargin`; every error is
re-thrown wrapped in `OAuth token request failed: ...` and the cache is
left untouched. -/
def getValidToken (st : OAuthState) (now : Int) (available : Bool)
    (wire : Except String TokenResponse) : TokenCallResult :=
  if cacheValid st now then
    { result := Except.ok (st.cachedToken.getD ""), state := st, requests := 0 }
  else
    match requestNewToken available wire with
    | (Except.error e, n) =>
        { result := Except.error ("OAuth token request failed: " ++ e)
          state := st
          requests := n }
    | (Except.ok r, n) =>
        { result := Except.ok r.access_token
          state := { cachedToken := some r.access_token
                     tokenExpiry := some (now + r.expires_in * 1000 - safetyMargin) }
          requests := n }

/-- Embedding of `PalabraOAuthService.clearCachedToken`. -/
def clearCachedToken (_st : OAuthState) : OAuthState := ⟨none, none⟩

/-- Modelled from the spec: the freshness guard as the claim words it,
`a cached token exists and now < expiresAt - safetyMargin`, where
`expiresAt` is the cached expiry.  This is the spec side of the C7
refinement; the code side is `cacheValid` above. -/
def specCacheFresh (st : OAuthState) (now : Int) : Bool :=
  match st.cachedToken, st.tokenExpiry with
  | some _, some exp => decide (now < exp - safetyMargin)
  | _, _ => false

/-! ## PalabraSessionService -/

/-- One entry of `this.activeSessions`: the `sessionData` object built in
`createSession` (lines 212-224).  The free-form `options` bag is kept as
an opaque association list. -/
structure SessionData where
  sessionId : String
  channel : String
  sourceLanguage : String
  targetLanguage : String
  streamUrl : Option String
  websocketUrl : Option String
  status : String
  createdAt : Int
  expiresAt : Int
  options : List (String × String)
  accessToken : String
  deriving Repr, DecidableEq

/-- The in-memory `Map` `channel -> session data`, as an association list
in insertion order. -/
abbrev Store := List (String × SessionData)

/-- JavaScript `Map.get`: the value stored under the key, if any. -/
def mapGet (st : Store) (c : String) : Option SessionData :=
  match st with
  | [] => none
  | (k, v) :: rest => if k = c then some v else mapGet rest c

/-- JavaScript `Map.delete`: drop the entry stored under the key. -/
def mapDelete (st : Store) (c : String) : Store :=
  match st with
  | [] => []
  | (k, v) :: rest => if k = c then mapDelete rest c else (k, v) :: mapDelete rest c

/-- JavaScript `Map.set`: replace the value in place when the key is
present, otherwise append a new entry. -/
def mapSet (st : Store) (c : String) (v : SessionData) : Store :=
  match st with
  | [] => [(c, v)]
  | (k, w) :: rest => if k = c then (c, v) :: rest else (k, w) :: mapSet rest c v

/-- Configuration of the session service: `cacheTimeout` (the session
TTL, default one hour) and `maxSessions` (default 100). -/
structure SessionConfig where
  cacheTimeout : Int
  maxSessions : Nat
  deriving Repr, DecidableEq

/-- Embedding of `PalabraSessionService.getActiveSession` (lines
254-269): a read that lazily evicts an expired entry
(`Date.now() >= session.expiresAt`) and reports absence. -/
def getActiveSession (st : Store) (channel : String) (now : Int) :
    Option SessionData × Store :=
  match mapGet st channel with
  | none => (none, st)
  | some s =>
      if now ≥ s.expiresAt then (none, mapDelete st channel)
      else (some s, st)

/-- Embedding of `PalabraSessionService.cleanupExpiredSessions` (lines
367-382): iterate the entries in order and delete every one with
`now >= session.expiresAt`. -/
def cleanupExpiredSessions (st : Store) (now : Int) : Store :=
  match st with
  | [] => []
  | (k, v) :: rest =>
      if now ≥ v.expiresAt then cleanupExpiredSessions rest now
      else (k, v) :: cleanupExpiredSessions rest now

/-- Body of the provider's `POST /sessions` response:
`{session_id, stream_url, websocket_url}`. -/
structure SessionResponse where
  session_id : String
  stream_url : Option String
  websocket_url : Option String
  deriving Repr, DecidableEq

/-- Result of one `createSession` call: the session returned or the
error thrown, the store afterwards, and how many provider
session-start requests were issued. -/
structure CreateResult where
  result : Except String SessionData
  store : Store
  providerCalls : Nat
  deriving Repr

/-- The `sessionData` object assembled on the success path of
`createSession` (source lines 212-224): `status` is the literal
`active`, `createdAt` is `Date.now()` and `expiresAt` is
`Date.now() + this.cacheTimeout`. -/
def newSessionData (cfg : SessionConfig)
    (channel sourceLanguage targetLanguage : String)
    (options : List (String × String)) (now : Int)
    (accessToken : String) (resp : SessionResponse) : SessionData :=
  { sessionId := resp.session_id
    channel := channel
    sourceLanguage := sourceLanguage
    targetLanguage := targetLanguage
    streamUrl := resp.stream_url
    websocketUrl := resp.websocket_url
    status := "active"
    createdAt := now
    expiresAt := now + cfg.cacheTimeout
    options := options
    accessToken := accessToken }

/-- The tail of `createSession` after the availability, existing-session
and capacity checks have passed (source lines 184-235): obtain the
OAuth token (`tokenRes` is the outcome of
`palabraOAuthService.getValidToken()`), then issue the provider
session-start request (`wire`), validate `session_id` truthiness, and
store the new record keyed by channel with `createdAt = now` and
`expiresAt = now + cacheTimeout`.  All errors are re-thrown wrapped in
`Session creation failed: ...` by the surrounding catch. -/
def createSessionBody (cfg : SessionConfig) (st : Store)
    (channel sourceLanguage targetLanguage : String)
    (options : List (String × String)) (now : Int)
    (tokenRes : Except String String)
    (wire : Except String SessionResponse) : CreateResult :=
  match tokenRes with
  | Except.error e =>
      { result := Except.error ("Session creation failed: " ++ e)
        store := st, providerCalls := 0 }
  | Except.ok accessToken =>
      match wire with
      | Except.error e =>
          { result := Except.error ("Session creation failed: " ++ e)
            store := st, providerCalls := 1 }
      | Except.ok resp =>
          if resp.session_id = "" then
            { result := Except.error
                "Session creation failed: Invalid session response from Palabra"
              store := st, providerCalls := 1 }
          else
            let sd := newSessionData cfg channel sourceLanguage targetLanguage
              options now accessToken resp
            { result := Except.ok sd
              store := mapSet st channel sd
              providerCalls := 1 }

/-- Embedding of `PalabraSessionService.createSession` (lines 155-247).
`avail` is `isAvailable()`.  In order: availability check,
existing-session check through `getActiveSession` (idempotent return,
with its lazy eviction side effect), capacity check with a synchronous
`cleanupExpiredSessions` sweep when `activeSessions.size >= maxSessions`,
then `createSessionBody`. -/
def createSession (cfg : SessionConfig) (st : Store)
    (channel sourceLanguage targetLanguage : String)
    (options : List (String × String)) (now : Int) (avail : Bool)
    (tokenRes : Except String String)
    (wire : Except String SessionResponse) : CreateResult :=
  if !avail then
    { result := Except.error
        "Session creation failed: Palabra session service is not configured"
      store := st, providerCalls := 0 }
  else
    match getActiveSession st channel now with
    | (some existing, st1) =>
        { result := Except.ok existing, store := st1, providerCalls := 0 }
    | (none, st1) =>
        if cfg.maxSessions ≤ st1.length then
          let st2 := cleanupExpiredSessions st1 now
          if cfg.maxSessions ≤ st2.length then
            { result := Except.error
                "Session creation failed: Maximum number of active sessions reached"
              store := st2, providerCalls := 0 }
          else
            createSessionBody cfg st2 channel sourceLanguage targetLanguage
              options now tokenRes wire
        else
          createSessionBody cfg st1 channel sourceLanguage targetLanguage
            options now tokenRes wire

/-- Embedding of `PalabraSessionService.endSession` (lines 276-318).
When the channel has no stored session it returns `false` without any
provider call.  Otherwise the provider `DELETE /sessions/:id` request
(`wire`) is issued and the local record is deleted on both the success
path and in the catch handler; the returned boolean is the provider
outcome.  Components: returned boolean, store afterwards, number of
provider stop requests issued. -/
def endSession (st : Store) (channel : String)
    (wire : Except String Unit) : Bool × Store × Nat :=
  match mapGet st channel with
  | none => (false, st, 0)
  | some _ =>
      match wire with
      | Except.ok _ => (true, mapDelete st channel, 1)
      | Except.error _ => (false, mapDelete st channel, 1)

/-- JavaScript `x || null` on an optional string: `undefined`, `null`
and `""` all collapse to `null`. -/
def jsOrNullStr (s : Option String) : Option String :=
  match s with
  | none => none
  | some v => if v = "" then none else some v

/-- JavaScript `x || null` on an optional number: missing values and `0`
collapse to `null`. -/
def jsOrNullInt (n : Option Int) : Option Int :=
  match n with
  | none => none
  | some v => if v = 0 then none else some v

/-- The object returned by `getSessionStatus` (lines 325-340). -/
structure SessionStatusInfo where
  hasSession : Bool
  sessionId : Option String
  status : String
  sourceLanguage : Option String
  targetLanguage : Option String
  streamUrl : Option String
  websocketUrl : Option String
  createdAt : Option Int
  expiresAt : Option Int
  isExpired : Bool
  deriving Repr, DecidableEq

/-- Embedding of `PalabraSessionService.getSessionStatus`: a read
through `getActiveSession` (so it shares the lazy eviction side
effect), with each field defaulted by `|| ...` truthiness. -/
def getSessionStatus (st : Store) (channel : String) (now : Int) :
    SessionStatusInfo × Store :=
  match getActiveSession st channel now with
  | (none, st1) =>
      ({ hasSession := false, sessionId := none, status := "inactive"
         sourceLanguage := none, targetLanguage := none
         streamUrl := none, websocketUrl := none
         createdAt := none, expiresAt := none, isExpired := true }, st1)
  | (some s, st1) =>
      ({ hasSession := true
         sessionId := jsOrNullStr (some s.sessionId)
         status := if s.status = "" then "inactive" else s.status
         sourceLanguage := jsOrNullStr (some s.sourceLanguage)
         targetLanguage := jsOrNullStr (some s.targetLanguage)
         streamUrl := jsOrNullStr s.streamUrl
         websocketUrl := jsOrNullStr s.websocketUrl
         createdAt := jsOrNullInt (some s.createdAt)
         expiresAt := jsOrNullInt (some s.expiresAt)
         isExpired := decide (now ≥ s.expiresAt) }, st1)

/-- One element of the list built by `getAllActiveSessions`. -/
structure SessionSummary where
  channel : String
  sessionId : String
  sourceLanguage : String
  targetLanguage : String
  status : String
  createdAt : Int
  expiresAt : Int
  deriving Repr, DecidableEq

/-- The summary object pushed by `getAllActiveSessions` for one entry. -/
def summarize (c : String) (s : SessionData) : SessionSummary :=
  { channel := c
    sessionId := s.sessionId
    sourceLanguage := s.sourceLanguage
    targetLanguage := s.targetLanguage
    status := s.status
    createdAt := s.createdAt
    expiresAt := s.expiresAt }

/-- The list built by the loop of `getAllActiveSessions`: a summary for
every entry with `Date.now() < session.expiresAt`, in map order. -/
def activeSummaries (st : Store) (now : Int) : List SessionSummary :=
  match st with
  | [] => []
  | (k, v) :: rest =>
      if now < v.expiresAt then summarize k v :: activeSummaries rest now
      else activeSummaries rest now

/-- Embedding of `PalabraSessionService.getAllActiveSessions` (lines
346-362).  The source performs no deletion in its loop, so the store
comes back unchanged. -/
def getAllActiveSessions (st : Store) (now : Int) :
    List SessionSummary × Store :=
  (activeSummaries st now, st)

/-! ## PalabraAgoraService -/

/-- One entry of `PalabraAgoraService.activeTasks`: `storeTask` keeps
`{taskId, taskInfo, createdAt}`; the raw provider blob is opaque. -/
structure TaskEntry where
  taskId : String
  taskInfo : String
  createdAt : Int
  deriving Repr, DecidableEq

/-- The in-memory `Map` `channel -> task entry`. -/
abbrev TaskMap := List (String × TaskEntry)

/-- JavaScript `Map.get` on the task map. -/
def taskGet (ts : TaskMap) (c : String) : Option TaskEntry :=
  match ts with
  | [] => none
  | (k, v) :: rest => if k = c then some v else taskGet rest c

/-- JavaScript `Map.delete` on the task map. -/
def taskDelete (ts : TaskMap) (c : String) : TaskMap :=
  match ts with
  | [] => []
  | (k, v) :: rest => if k = c then taskDelete rest c else (k, v) :: taskDelete rest c

/-- Outcome of the provider `DELETE /agora/translations/:taskId` call.
`axios` throws on every non-2xx response, so a provider-side
"task not found" (HTTP 404) arrives as a thrown error, distinguished
here from other failures only for the sake of C9. -/
inductive StopWire where
  | ok
  | notFound
  | failure (msg : String)
  deriving Repr, DecidableEq

/-- Embedding of `PalabraAgoraService.stopTranslationTask` (unnamed
source `part_001`, lines 40-79).  Unconfigured service throws; a
channel with no stored task returns `false` with no provider call;
otherwise the provider delete is issued and the local entry is removed
on the success path and in the catch handler alike, returning `true`
only when the provider call succeeded.  Components: result (thrown
error or returned boolean), task map afterwards, number of provider
stop requests issued. -/
def stopTranslationTask (configured : Bool) (ts : TaskMap)
    (channel : String) (wire : StopWire) :
    Except String Bool × TaskMap × Nat :=
  if !configured then
    (Except.error "Palabra Agora service is not configured (missing ClientID/ClientSecret)",
     ts, 0)
  else
    match taskGet ts channel with
    | none => (Except.ok false, ts, 0)
    | some _ =>
        match wire with
        | StopWire.ok => (Except.ok true, taskDelete ts channel, 1)
        | StopWire.notFound => (Except.ok false, taskDelete ts channel, 1)
        | StopWire.failure _ => (Except.ok false, taskDelete ts channel, 1)

/-! ## Interleaving model of concurrent getValidToken calls

JavaScript is single threaded: code between two `await` points runs
atomically, and interleaving happens only at suspension points.
`getValidToken` has exactly one suspension point, the
`await axios.post` inside `requestNewToken`.  Each concurrent call is
therefore a thread with two atomic segments: the prologue (cache
check, `isAvailable` check, issuing the outbound request) and the
response handler (`access_token` truthiness check, cache write,
return).  A schedule is a list of thread indices; stepping a `ready`
thread runs its prologue, stepping a `waiting` thread delivers the
response of the outbound request it issued. -/

/-- Phase of one concurrent `getValidToken` call. -/
inductive ThreadPhase where
  | ready
  | waiting (reqId : Nat)
  | done (result : Except String String)
  deriving Repr

/-- Environment of a concurrent burst: whether the service is
configured, the (fixed) current time, and the wire outcome of the
`i`-th outbound token request. -/
structure BurstEnv where
  available : Bool
  now : Int
  responses : Nat → Except String TokenResponse

/-- Shared state during a burst: the token cache, the phase of each
thread, and how many outbound token requests have been issued. -/
structure BurstState where
  cache : OAuthState
  threads : Nat → ThreadPhase
  requests : Nat

/-- Run one atomic segment of thread `i`: the prologue of
`getValidToken` when the thread is `ready` (lines 36-43 of the source
up to the `await`), or the post-await segment when it is `waiting`
(lines 44-54 and the catch handler).  Stepping a finished thread does
nothing. -/
def burstStep (env : BurstEnv) (s : BurstState) (i : Nat) : BurstState :=
  match s.threads i with
  | ThreadPhase.ready =>
      if cacheValid s.cache env.now then
        { s with threads := fun j =>
            if j = i then
              ThreadPhase.done (Except.ok (s.cache.cachedToken.getD ""))
            else s.threads j }
      else if !env.available then
        { s with threads := fun j =>
            if j = i then
              ThreadPhase.done (Except.error
                "OAuth token request failed: OAuth service is not configured")
            else s.threads j }
      else
        { s with
            threads := fun j =>
              if j = i then ThreadPhase.waiting s.requests else s.threads j
            requests := s.requests + 1 }
  | ThreadPhase.waiting r =>
      match env.responses r with
      | Except.error e =>
          { s with threads := fun j =>
              if j = i then
                ThreadPhase.done (Except.error ("OAuth token request failed: " ++ e))
              else s.threads j }
      | Except.ok resp =>
          if resp.access_token = "" then
            { s with threads := fun j =>
                if j = i then
                  ThreadPhase.done (Except.error
                    "OAuth token request failed: Invalid token response from Palabra OAuth")
                else s.threads j }
          else
            { s with
                cache := { cachedToken := some resp.access_token
                           tokenExpiry := some (env.now + resp.expires_in * 1000 - safetyMargin) }
                threads := fun j =>
                  if j = i then ThreadPhase.done (Except.ok resp.access_token)
                  else s.threads j }
  | ThreadPhase.done _ => s

/-- Run a whole schedule of atomic segments. -/
def burstRun (env : BurstEnv) (s : BurstState) (sched : List Nat) : BurstState :=
  sched.foldl (burstStep env) s

/-- Initial burst state: `n` concurrent `getValidToken` calls about to
run against the cache `c`, no outbound request issued yet. -/
def burstInit (c : OAuthState) (_n : Nat) : BurstState :=
  { cache := c, threads := fun _ => ThreadPhase.ready, requests := 0 }

/-! ## Operation traces over the session store

The session service mutates its store only through the five public
entry points below.  Reachability from the empty store (the
constructor's `new Map()`) by a list of operations is what the
store-shaped invariants are proved over. -/

/-- One invocation of a `PalabraSessionService` entry point, carrying
the oracle outcomes the invocation consumed. -/
inductive SessionOp where
  | create (channel sourceLanguage targetLanguage : String)
      (options : List (String × String)) (now : Int) (avail : Bool)
      (tokenRes : Except String String) (wire : Except String SessionResponse)
  | stop (channel : String) (wire : Except String Unit)
  | statusQuery (channel : String) (now : Int)
  | listQuery (now : Int)
  | readOne (channel : String) (now : Int)
  | sweep (now : Int)

/-- The wall-clock instant an operation observed (`Date.now()`);
`endSession` never reads the clock, so `stop` carries none. -/
def opNow : SessionOp → Int
  | SessionOp.create _ _ _ _ now _ _ _ => now
  | SessionOp.stop _ _ => 0
  | SessionOp.statusQuery _ now => now
  | SessionOp.listQuery now => now
  | SessionOp.readOne _ now => now
  | SessionOp.sweep now => now

/-- Effect of one operation on the store. -/
def applyOp (cfg : SessionConfig) (st : Store) : SessionOp → Store
  | SessionOp.create c s t o now av tr w =>
      (createSession cfg st c s t o now av tr w).store
  | SessionOp.stop c w => (endSession st c w).2.1
  | SessionOp.statusQuery c now => (getSessionStatus st c now).2
  | SessionOp.listQuery now => (getAllActiveSessions st now).2
  | SessionOp.readOne c now => (getActiveSession st c now).2
  | SessionOp.sweep now => cleanupExpiredSessions st now

/-- Store produced by running a list of operations. -/
def runOps (cfg : SessionConfig) (st : Store) (ops : List SessionOp) : Store :=
  ops.foldl (fun acc op => applyOp cfg acc op) st

/-- Number of non-expired sessions in the store at instant `now`. -/
def countActive (st : Store) (now : Int) : Nat :=
  (st.filter (fun p => decide (now < p.2.expiresAt))).length

/-- The association list has pairwise distinct keys (true of every
store reachable from the empty map, since a JavaScript `Map` keys
entries uniquely). -/
def NodupKeys (st : Store) : Prop := (st.map Prod.fst).Nodup

/-- Shape invariant of stored sessions: every record was built by
`newSessionData`, so its status is the literal `active` and its expiry
is exactly `createdAt + cacheTimeout`. -/
def StoreWF (cfg : SessionConfig) (st : Store) : Prop :=
  ∀ p : String × SessionData, p ∈ st →
    p.2.status = "active" ∧ p.2.expiresAt = p.2.createdAt + cfg.cacheTimeout

/-! ## Concrete fixtures used by witnesses and counterexamples -/

/-- A session whose expiry window is `[0, 1000)`. -/
def sampleSession : SessionData :=
  { sessionId := "s1", channel := "room1", sourceLanguage := "en"
    targetLanguage := "es", streamUrl := some "su", websocketUrl := some "wu"
    status := "active", createdAt := 0, expiresAt := 1000
    options := [], accessToken := "at" }

/-- A store holding only `sampleSession`, expired at any instant from
1000 on. -/
def expiredStore : Store := [("room1", sampleSession)]

/-- A cached OAuth token whose stored expiry is 1000000 ms. -/
def staleWindowCache : OAuthState := ⟨some "tok", some 1000000⟩

/-- A provider session-start response body. -/
def sampleResponse : SessionResponse :=
  ⟨"s1", some "su", some "wu"⟩

/-- A session-service configuration: one-hour TTL, two session slots. -/
def sampleCfg : SessionConfig := ⟨3600000, 2⟩

/-- A session-service configuration with a single session slot. -/
def tinyCfg : SessionConfig := ⟨3600000, 1⟩

/-- A stored Agora task for channel room1. -/
def sampleTask : TaskEntry := ⟨"t1", "info", 0⟩

/-- Agora task map holding only `sampleTask`. -/
def sampleTaskMap : TaskMap := [("room1", sampleTask)]

/-- Burst environment whose outbound request number `r` is answered
with a distinct token per request. -/
def burstEnvAB : BurstEnv :=
  { available := true, now := 0
    responses := fun r =>
      if r = 0 then Except.ok ⟨"tokA", 3600⟩ else Except.ok ⟨"tokB", 3600⟩ }

/-! ## Lemmas about the store primitives -/

theorem mapGet_cons (k : String) (v : SessionData) (rest : Store) (c : String) :
    mapGet ((k, v) :: rest) c = if k = c then some v else mapGet rest c := rfl

theorem mapGet_mapDelete_self (st : Store) (c : String) :
    mapGet (mapDelete st c) c = none := by
  induction st with
  | nil => rfl
  | cons p rest ih =>
      cases p with
      | mk k w =>
          by_cases h : k = c
          · simpa [mapDelete, h] using ih
          · simpa [mapDelete, h, mapGet_cons] using ih

theorem mapGet_mapDelete_ne (st : Store) (c c2 : String) (h : c2 ≠ c) :
    mapGet (mapDelete st c) c2 = mapGet st c2 := by
  induction st with
  | nil => rfl
  | cons p rest ih =>
      cases p with
      | mk k w =>
          by_cases hp : k = c
          · subst hp
            have hp2 : ¬(k = c2) := h.symm
            simp only [mapDelete, if_pos rfl, mapGet_cons, hp2, if_false]
            exact ih
          · simp only [mapDelete, hp, if_false, mapGet_cons]
            by_cases hq : k = c2 <;> simp [hq, ih]

theorem mapGet_mapSet_self (st : Store) (c : String) (v : SessionData) :
    mapGet (mapSet st c v) c = some v := by
  induction st with
  | nil => simp [mapSet, mapGet]
  | cons p rest ih =>
      cases p with
      | mk k w =>
          by_cases hp : k = c
          · simp [mapSet, hp, mapGet_cons]
          · simp only [mapSet, hp, if_false, mapGet_cons]
            exact ih

theorem mapGet_mapSet_ne (st : Store) (c c2 : String) (v : SessionData) (h : c2 ≠ c) :
    mapGet (mapSet st c v) c2 = mapGet st c2 := by
  induction st with
  | nil => simp [mapSet, mapGet_cons, mapGet, h.symm]
  | cons p rest ih =>
      cases p with
      | mk k w =>
          by_cases hp : k = c
          · subst hp
            have hne : ¬(k = c2) := h.symm
            simp [mapSet, mapGet_cons, hne]
          · simp only [mapSet, hp, if_false, mapGet_cons]
            by_cases hq : k = c2 <;> simp [hq, ih]

theorem length_mapDelete_le (st : Store) (c : String) :
    (mapDelete st c).length ≤ st.length := by
  induction st with
  | nil => exact Nat.le_refl 0
  | cons p rest ih =>
      cases p with
      | mk k w =>
          by_cases h : k = c
          · simp only [mapDelete, h, if_true, List.length_cons]
            exact Nat.le_succ_of_le ih
          · simp only [mapDelete, h, if_false, List.length_cons]
            exact Nat.succ_le_succ ih

theorem length_cleanup_le (st : Store) (now : Int) :
    (cleanupExpiredSessions st now).length ≤ st.length := by
  induction st with
  | nil => exact Nat.le_refl 0
  | cons p rest ih =>
      cases p with
      | mk k w =>
          by_cases h : now ≥ w.expiresAt
          · simp only [cleanupExpiredSessions, h, if_true, List.length_cons]
            exact Nat.le_succ_of_le ih
          · simp only [cleanupExpiredSessions, h, if_false, List.length_cons]
            exact Nat.succ_le_succ ih

theorem mapGet_mem (st : Store) (c : String) (s : SessionData)
    (h : mapGet st c = some s) : (c, s) ∈ st := by
  induction st with
  | nil => simp [mapGet] at h
  | cons p rest ih =>
      cases p with
      | mk k w =>
          rw [mapGet_cons] at h
          by_cases hk : k = c
          · subst hk
            simp only [if_true] at h
            cases h
            exact List.mem_cons_self _ _
          · simp only [hk, if_false] at h
            exact List.mem_cons_of_mem _ (ih h)

theorem length_mapDelete_lt (st : Store) (c : String) (s : SessionData)
    (h : mapGet st c = some s) : (mapDelete st c).length < st.length := by
  induction st with
  | nil => simp [mapGet] at h
  | cons p rest ih =>
      cases p with
      | mk k w =>
          rw [mapGet_cons] at h
          by_cases hk : k = c
          · simp only [mapDelete, hk, if_true, List.length_cons]
            exact Nat.lt_succ_of_le (length_mapDelete_le rest c)
          · simp only [hk, if_false] at h
            simp only [mapDelete, hk, if_false, List.length_cons]
            exact Nat.succ_lt_succ (ih h)

theorem length_mapSet_of_none (st : Store) (c : String) (v : SessionData)
    (h : mapGet st c = none) : (mapSet st c v).length = st.length + 1 := by
  induction st with
  | nil => rfl
  | cons p rest ih =>
      cases p with
      | mk k w =>
          rw [mapGet_cons] at h
          by_cases hk : k = c
          · simp [hk] at h
          · simp only [hk, if_false] at h
            simp [mapSet, hk, ih h]

theorem mapGet_cleanup_none (st : Store) (now : Int) (c : String)
    (h : mapGet st c = none) :
    mapGet (cleanupExpiredSessions st now) c = none := by
  induction st with
  | nil => rfl
  | cons p rest ih =>
      cases p with
      | mk k w =>
          rw [mapGet_cons] at h
          by_cases hk : k = c
          · simp [hk] at h
          · simp only [hk, if_false] at h
            simp only [cleanupExpiredSessions]
            by_cases he : now ≥ w.expiresAt
            · simpa [he] using ih h
            · simpa [he, mapGet_cons, hk] using ih h

/-! ## Lemmas about getActiveSession -/

theorem getActiveSession_of_get_none (st : Store) (c : String) (now : Int)
    (h : mapGet st c = none) : getActiveSession st c now = (none, st) := by
  simp [getActiveSession, h]

theorem getActiveSession_of_expired (st : Store) (c : String) (now : Int)
    (s : SessionData) (h : mapGet st c = some s) (he : now ≥ s.expiresAt) :
    getActiveSession st c now = (none, mapDelete st c) := by
  simp [getActiveSession, h, he]

theorem getActiveSession_of_live (st : Store) (c : String) (now : Int)
    (s : SessionData) (h : mapGet st c = some s) (hl : now < s.expiresAt) :
    getActiveSession st c now = (some s, st) := by
  have : ¬ now ≥ s.expiresAt := not_le.mpr hl
  simp [getActiveSession, h, this]

theorem getActiveSession_fst_some (st : Store) (c : String) (now : Int)
    (s : SessionData) (h : (getActiveSession st c now).1 = some s) :
    mapGet st c = some s ∧ now < s.expiresAt ∧
      (getActiveSession st c now).2 = st := by
  cases hm : mapGet st c with
  | none => rw [getActiveSession_of_get_none st c now hm] at h; cases h
  | some v =>
      by_cases he : now ≥ v.expiresAt
      · rw [getActiveSession_of_expired st c now v hm he] at h; cases h
      · have hl := lt_of_not_le he
        have hres := getActiveSession_of_live st c now v hm hl
        rw [hres] at h
        have hv : v = s := by injection h
        subst hv
        exact ⟨by simp [hm], hl, by rw [hres]⟩

theorem getActiveSession_fst_some_get (st : Store) (c : String) (now : Int)
    (s : SessionData) (h : (getActiveSession st c now).1 = some s) :
    mapGet st c = some s :=
  (getActiveSession_fst_some st c now s h).1

theorem getActiveSession_fst_none_get (st : Store) (c : String) (now : Int)
    (h : (getActiveSession st c now).1 = none) :
    mapGet (getActiveSession st c now).2 c = none := by
  cases hm : mapGet st c with
  | none => rw [getActiveSession_of_get_none st c now hm]; exact hm
  | some v =>
      by_cases he : now ≥ v.expiresAt
      · rw [getActiveSession_of_expired st c now v hm he]
        exact mapGet_mapDelete_self st c
      · rw [getActiveSession_of_live st c now v hm (lt_of_not_le he)] at h
        cases h

theorem getActiveSession_snd_cases (st : Store) (c : String) (now : Int) :
    (getActiveSession st c now).2 = st ∨
      (getActiveSession st c now).2 = mapDelete st c := by
  cases hm : mapGet st c with
  | none => rw [getActiveSession_of_get_none st c now hm]; exact Or.inl rfl
  | some v =>
      by_cases he : now ≥ v.expiresAt
      · rw [getActiveSession_of_expired st c now v hm he]; exact Or.inr rfl
      · rw [getActiveSession_of_live st c now v hm (lt_of_not_le he)]; exact Or.inl rfl

theorem length_getActiveSession_snd_le (st : Store) (c : String) (now : Int) :
    (getActiveSession st c now).2.length ≤ st.length := by
  rcases getActiveSession_snd_cases st c now with h | h
  · rw [h]
  · rw [h]; exact length_mapDelete_le st c

theorem mapGet_getActiveSession_snd_ne (st : Store) (c c2 : String) (now : Int)
    (h : c2 ≠ c) :
    mapGet (getActiveSession st c now).2 c2 = mapGet st c2 := by
  rcases getActiveSession_snd_cases st c now with hm | hm
  · rw [hm]
  · rw [hm]; exact mapGet_mapDelete_ne st c c2 h

/-! ## Branch characterizations of createSession -/

theorem createSession_not_avail (cfg : SessionConfig) (st : Store)
    (c sl tl : String) (o : List (String × String)) (now : Int)
    (tok : Except String String) (wire : Except String SessionResponse) :
    createSession cfg st c sl tl o now false tok wire =
      { result := Except.error
          "Session creation failed: Palabra session service is not configured"
        store := st, providerCalls := 0 } := rfl

theorem createSession_existing (cfg : SessionConfig) (st : Store)
    (c sl tl : String) (o : List (String × String)) (now : Int)
    (tok : Except String String) (wire : Except String SessionResponse)
    (s : SessionData) (h : (getActiveSession st c now).1 = some s) :
    createSession cfg st c sl tl o now true tok wire =
      { result := Except.ok s, store := st, providerCalls := 0 } := by
  obtain ⟨hg, hl, _⟩ := getActiveSession_fst_some st c now s h
  have hres := getActiveSession_of_live st c now s hg hl
  unfold createSession
  rw [hres]
  rfl

theorem createSession_fresh_lowcap (cfg : SessionConfig) (st : Store)
    (c sl tl : String) (o : List (String × String)) (now : Int)
    (tok : Except String String) (wire : Except String SessionResponse)
    (h1 : (getActiveSession st c now).1 = none)
    (h2 : (getActiveSession st c now).2.length < cfg.maxSessions) :
    createSession cfg st c sl tl o now true tok wire =
      createSessionBody cfg (getActiveSession st c now).2 c sl tl o now tok wire := by
  rcases hga : getActiveSession st c now with ⟨f, s1⟩
  rw [hga] at h1 h2
  simp only at h1 h2
  subst h1
  unfold createSession
  rw [hga]
  simp only [Bool.not_true, Bool.false_eq_true, if_false]
  rw [if_neg (not_le.mpr h2)]

theorem createSession_fresh_swept (cfg : SessionConfig) (st : Store)
    (c sl tl : String) (o : List (String × String)) (now : Int)
    (tok : Except String String) (wire : Except String SessionResponse)
    (h1 : (getActiveSession st c now).1 = none)
    (h2 : cfg.maxSessions ≤ (getActiveSession st c now).2.length)
    (h3 : (cleanupExpiredSessions (getActiveSession st c now).2 now).length <
      cfg.maxSessions) :
    createSession cfg st c sl tl o now true tok wire =
      createSessionBody cfg (cleanupExpiredSessions (getActiveSession st c now).2 now)
        c sl tl o now tok wire := by
  rcases hga : getActiveSession st c now with ⟨f, s1⟩
  rw [hga] at h1 h2 h3
  simp only at h1 h2 h3
  subst h1
  unfold createSession
  rw [hga]
  simp only [Bool.not_true, Bool.false_eq_true, if_false]
  rw [if_pos h2, if_neg (not_le.mpr h3)]

theorem createSession_capacity (cfg : SessionConfig) (st : Store)
    (c sl tl : String) (o : List (String × String)) (now : Int)
    (tok : Except String String) (wire : Except String SessionResponse)
    (h1 : (getActiveSession st c now).1 = none)
    (h2 : cfg.maxSessions ≤ (getActiveSession st c now).2.length)
    (h3 : cfg.maxSessions ≤
      (cleanupExpiredSessions (getActiveSession st c now).2 now).length) :
    createSession cfg st c sl tl o now true tok wire =
      { result := Except.error
          "Session creation failed: Maximum number of active sessions reached"
        store := cleanupExpiredSessions (getActiveSession st c now).2 now
        providerCalls := 0 } := by
  rcases hga : getActiveSession st c now with ⟨f, s1⟩
  rw [hga] at h1 h2 h3
  simp only at h1 h2 h3
  subst h1
  unfold createSession
  rw [hga]
  simp only [Bool.not_true, Bool.false_eq_true, if_false]
  rw [if_pos h2, if_pos h3]

/-- Every outcome of `createSessionBody`: either an error with the
store untouched, or the success path that installs the freshly built
session under the channel. -/
theorem createSessionBody_cases (cfg : SessionConfig) (st : Store)
    (c sl tl : String) (o : List (String × String)) (now : Int)
    (tok : Except String String) (wire : Except String SessionResponse) :
    (∃ e, (createSessionBody cfg st c sl tl o now tok wire).result =
        Except.error e ∧
        (createSessionBody cfg st c sl tl o now tok wire).store = st) ∨
    (∃ a resp, tok = Except.ok a ∧ wire = Except.ok resp ∧
      ¬(resp.session_id = "") ∧
      createSessionBody cfg st c sl tl o now tok wire =
        { result := Except.ok (newSessionData cfg c sl tl o now a resp)
          store := mapSet st c (newSessionData cfg c sl tl o now a resp)
          providerCalls := 1 }) := by
  unfold createSessionBody
  cases tok with
  | error e => exact Or.inl ⟨_, rfl, rfl⟩
  | ok a =>
      cases wire with
      | error e => exact Or.inl ⟨_, rfl, rfl⟩
      | ok resp =>
          by_cases hid : resp.session_id = ""
          · exact Or.inl
              ⟨"Session creation failed: Invalid session response from Palabra",
               by simp [hid], by simp [hid]⟩
          · exact Or.inr ⟨a, resp, rfl, rfl, hid, by simp [hid]⟩

theorem createSessionBody_ok (cfg : SessionConfig) (st : Store)
    (c sl tl : String) (o : List (String × String)) (now : Int)
    (a : String) (resp : SessionResponse) (hid : ¬(resp.session_id = "")) :
    createSessionBody cfg st c sl tl o now (Except.ok a) (Except.ok resp) =
      { result := Except.ok (newSessionData cfg c sl tl o now a resp)
        store := mapSet st c (newSessionData cfg c sl tl o now a resp)
        providerCalls := 1 } := by
  unfold createSessionBody
  simp [hid]

theorem createSessionBody_provider_error (cfg : SessionConfig) (st : Store)
    (c sl tl : String) (o : List (String × String)) (now : Int)
    (a : String) (e : String) :
    createSessionBody cfg st c sl tl o now (Except.ok a) (Except.error e) =
      { result := Except.error ("Session creation failed: " ++ e)
        store := st, providerCalls := 1 } := rfl

/-! ## Membership and length facts feeding the store invariants -/

theorem mem_mapDelete (st : Store) (c : String) (p : String × SessionData)
    (h : p ∈ mapDelete st c) : p ∈ st := by
  induction st with
  | nil => cases h
  | cons q rest ih =>
      cases q with
      | mk k w =>
          by_cases hk : k = c
          · simp only [mapDelete, hk, if_true] at h
            exact List.mem_cons_of_mem _ (ih h)
          · simp only [mapDelete, hk, if_false, List.mem_cons] at h
            rcases h with h | h
            · exact h ▸ List.mem_cons_self _ _
            · exact List.mem_cons_of_mem _ (ih h)

theorem mem_cleanup (st : Store) (now : Int) (p : String × SessionData)
    (h : p ∈ cleanupExpiredSessions st now) : p ∈ st := by
  induction st with
  | nil => cases h
  | cons q rest ih =>
      cases q with
      | mk k w =>
          by_cases he : now ≥ w.expiresAt
          · simp only [cleanupExpiredSessions, he, if_true] at h
            exact List.mem_cons_of_mem _ (ih h)
          · simp only [cleanupExpiredSessions, he, if_false, List.mem_cons] at h
            rcases h with h | h
            · exact h ▸ List.mem_cons_self _ _
            · exact List.mem_cons_of_mem _ (ih h)

theorem mem_mapSet (st : Store) (c : String) (v : SessionData)
    (p : String × SessionData) (h : p ∈ mapSet st c v) :
    p ∈ st ∨ p = (c, v) := by
  induction st with
  | nil =>
      simp only [mapSet, List.mem_singleton] at h
      exact Or.inr h
  | cons q rest ih =>
      cases q with
      | mk k w =>
          by_cases hk : k = c
          · simp only [mapSet, hk, if_true, List.mem_cons] at h
            rcases h with h | h
            · exact Or.inr h
            · exact Or.inl (List.mem_cons_of_mem _ h)
          · simp only [mapSet, hk, if_false, List.mem_cons] at h
            rcases h with h | h
            · exact Or.inl (h ▸ List.mem_cons_self _ _)
            · rcases ih h with h2 | h2
              · exact Or.inl (List.mem_cons_of_mem _ h2)
              · exact Or.inr h2

theorem length_cleanup_lt (st : Store) (now : Int) (p : String × SessionData)
    (hmem : p ∈ st) (he : now ≥ p.2.expiresAt) :
    (cleanupExpiredSessions st now).length < st.length := by
  induction st with
  | nil => cases hmem
  | cons q rest ih =>
      cases q with
      | mk k w =>
          by_cases hd : now ≥ w.expiresAt
          · simp only [cleanupExpiredSessions, hd, if_true, List.length_cons]
            exact Nat.lt_succ_of_le (length_cleanup_le rest now)
          · rcases List.mem_cons.mp hmem with h | h
            · rw [h] at he
              exact absurd he hd
            · simp only [cleanupExpiredSessions, hd, if_false, List.length_cons]
              exact Nat.succ_lt_succ (ih h)

theorem mapGet_some_mem_keys (st : Store) (c : String) (s : SessionData)
    (h : mapGet st c = some s) : c ∈ st.map Prod.fst := by
  have := mapGet_mem st c s h
  exact List.mem_map_of_mem Prod.fst this

theorem mapGet_cleanup_some (st : Store) (now : Int) (c : String)
    (s : SessionData) (hnd : NodupKeys st)
    (h : mapGet (cleanupExpiredSessions st now) c = some s) :
    mapGet st c = some s := by
  induction st with
  | nil => cases h
  | cons q rest ih =>
      cases q with
      | mk k w =>
          have hnd2 : NodupKeys rest := (List.nodup_cons.mp hnd).2
          have hto : k ∉ rest.map Prod.fst := (List.nodup_cons.mp hnd).1
          by_cases hd : now ≥ w.expiresAt
          · simp only [cleanupExpiredSessions, hd, if_true] at h
            have h2 := ih hnd2 h
            rw [mapGet_cons]
            by_cases hk : k = c
            · subst hk
              exact absurd (mapGet_some_mem_keys rest k s h2) hto
            · rw [if_neg hk]; exact h2
          · simp only [cleanupExpiredSessions, hd, if_false, mapGet_cons] at h
            rw [mapGet_cons]
            by_cases hk : k = c
            · rw [if_pos hk] at h ⊢; exact h
            · rw [if_neg hk] at h ⊢; exact ih hnd2 h

theorem nodupKeys_mapDelete (st : Store) (c : String) (h : NodupKeys st) :
    NodupKeys (mapDelete st c) := by
  induction st with
  | nil => exact h
  | cons q rest ih =>
      cases q with
      | mk k w =>
          have hnd2 : NodupKeys rest := (List.nodup_cons.mp h).2
          have hto : k ∉ rest.map Prod.fst := (List.nodup_cons.mp h).1
          by_cases hk : k = c
          · simp only [mapDelete, hk, if_true]
            exact ih hnd2
          · simp only [mapDelete, hk, if_false]
            refine List.nodup_cons.mpr ⟨?_, ih hnd2⟩
            intro hmem
            rcases List.mem_map.mp hmem with ⟨p, hp, hfst⟩
            exact hto (List.mem_map.mpr ⟨p, mem_mapDelete rest c p hp, hfst⟩)

theorem nodupKeys_cleanup (st : Store) (now : Int) (h : NodupKeys st) :
    NodupKeys (cleanupExpiredSessions st now) := by
  induction st with
  | nil => exact h
  | cons q rest ih =>
      cases q with
      | mk k w =>
          have hnd2 : NodupKeys rest := (List.nodup_cons.mp h).2
          have hto : k ∉ rest.map Prod.fst := (List.nodup_cons.mp h).1
          by_cases hd : now ≥ w.expiresAt
          · simp only [cleanupExpiredSessions, hd, if_true]
            exact ih hnd2
          · simp only [cleanupExpiredSessions, hd, if_false]
            refine List.nodup_cons.mpr ⟨?_, ih hnd2⟩
            intro hmem
            rcases List.mem_map.mp hmem with ⟨p, hp, hfst⟩
            exact hto (List.mem_map.mpr ⟨p, mem_cleanup rest now p hp, hfst⟩)

theorem nodupKeys_mapSet (st : Store) (c : String) (v : SessionData)
    (h : NodupKeys st) : NodupKeys (mapSet st c v) := by
  induction st with
  | nil => simp [mapSet, NodupKeys]
  | cons q rest ih =>
      cases q with
      | mk k w =>
          have hnd2 : NodupKeys rest := (List.nodup_cons.mp h).2
          have hto : k ∉ rest.map Prod.fst := (List.nodup_cons.mp h).1
          by_cases hk : k = c
          · subst hk
            simp only [mapSet, if_pos rfl]
            exact List.nodup_cons.mpr ⟨hto, hnd2⟩
          · simp only [mapSet, hk, if_false]
            refine List.nodup_cons.mpr ⟨?_, ih hnd2⟩
            intro hmem
            rcases List.mem_map.mp hmem with ⟨p, hp, hfst⟩
            rcases mem_mapSet rest c v p hp with h2 | h2
            · exact hto (List.mem_map.mpr ⟨p, h2, hfst⟩)
            · apply hk
              rw [h2] at hfst
              simpa using hfst.symm

/-! ## Propagation lemmas through the service operations -/

theorem mapGet_mapDelete_some (st : Store) (c0 c : String) (s : SessionData)
    (h : mapGet (mapDelete st c0) c = some s) : mapGet st c = some s := by
  by_cases hc : c = c0
  · subst hc
    rw [mapGet_mapDelete_self] at h
    cases h
  · rwa [mapGet_mapDelete_ne st c0 c hc] at h

theorem mapGet_getActiveSession_snd_some (st : Store) (c0 c : String)
    (now : Int) (s : SessionData)
    (h : mapGet (getActiveSession st c0 now).2 c = some s) :
    mapGet st c = some s := by
  rcases getActiveSession_snd_cases st c0 now with hm | hm
  · rwa [hm] at h
  · rw [hm] at h
    exact mapGet_mapDelete_some st c0 c s h

theorem nodupKeys_getActiveSession_snd (st : Store) (c0 : String) (now : Int)
    (h : NodupKeys st) : NodupKeys (getActiveSession st c0 now).2 := by
  rcases getActiveSession_snd_cases st c0 now with hm | hm
  · rwa [hm]
  · rw [hm]; exact nodupKeys_mapDelete st c0 h

theorem endSession_absent (st : Store) (c : String) (wire : Except String Unit)
    (h : mapGet st c = none) : endSession st c wire = (false, st, 0) := by
  unfold endSession
  rw [h]

theorem endSession_present_ok (st : Store) (c : String) (s : SessionData)
    (h : mapGet st c = some s) :
    endSession st c (Except.ok ()) = (true, mapDelete st c, 1) := by
  unfold endSession
  rw [h]

theorem endSession_present_error (st : Store) (c : String) (s : SessionData)
    (e : String) (h : mapGet st c = some s) :
    endSession st c (Except.error e) = (false, mapDelete st c, 1) := by
  unfold endSession
  rw [h]

theorem endSession_store_cases (st : Store) (c : String)
    (wire : Except String Unit) :
    (endSession st c wire).2.1 = st ∨ (endSession st c wire).2.1 = mapDelete st c := by
  cases hm : mapGet st c with
  | none => rw [endSession_absent st c wire hm]; exact Or.inl rfl
  | some s =>
      cases wire with
      | ok u => cases u; rw [endSession_present_ok st c s hm]; exact Or.inr rfl
      | error e => rw [endSession_present_error st c s e hm]; exact Or.inr rfl

theorem getSessionStatus_snd (st : Store) (c : String) (now : Int) :
    (getSessionStatus st c now).2 = (getActiveSession st c now).2 := by
  unfold getSessionStatus
  rcases hga : getActiveSession st c now with ⟨f, s1⟩
  cases f <;> rfl

/-- Central inversion: any entry of the store after `createSession`
either was already present under the same channel, or is the freshly
created session for the requested channel. -/
theorem mapGet_createSession_store (cfg : SessionConfig) (st : Store)
    (c0 sl tl : String) (o : List (String × String)) (now : Int) (av : Bool)
    (tok : Except String String) (wire : Except String SessionResponse)
    (c : String) (s2 : SessionData) (hnd : NodupKeys st)
    (h : mapGet (createSession cfg st c0 sl tl o now av tok wire).store c = some s2) :
    mapGet st c = some s2 ∨
      (c = c0 ∧ s2.createdAt = now ∧ s2.expiresAt = now + cfg.cacheTimeout ∧
        s2.status = "active") := by
  cases av with
  | false =>
      rw [createSession_not_avail] at h
      exact Or.inl h
  | true =>
      cases hf : (getActiveSession st c0 now).1 with
      | some s =>
          rw [createSession_existing cfg st c0 sl tl o now tok wire s hf] at h
          exact Or.inl h
      | none =>
          have hnd1 : NodupKeys (getActiveSession st c0 now).2 :=
            nodupKeys_getActiveSession_snd st c0 now hnd
          by_cases hcap : cfg.maxSessions ≤ (getActiveSession st c0 now).2.length
          · by_cases hcap2 : cfg.maxSessions ≤
                (cleanupExpiredSessions (getActiveSession st c0 now).2 now).length
            · rw [createSession_capacity cfg st c0 sl tl o now tok wire hf hcap hcap2] at h
              simp only at h
              exact Or.inl (mapGet_getActiveSession_snd_some st c0 c now s2
                (mapGet_cleanup_some _ now c s2 hnd1 h))
            · rw [createSession_fresh_swept cfg st c0 sl tl o now tok wire hf hcap
                (lt_of_not_le hcap2)] at h
              rcases createSessionBody_cases cfg
                  (cleanupExpiredSessions (getActiveSession st c0 now).2 now)
                  c0 sl tl o now tok wire with ⟨e, _, hst⟩ | ⟨a, resp, _, _, _, heq⟩
              · rw [hst] at h
                exact Or.inl (mapGet_getActiveSession_snd_some st c0 c now s2
                  (mapGet_cleanup_some _ now c s2 hnd1 h))
              · rw [heq] at h
                simp only at h
                by_cases hc : c = c0
                · subst hc
                  rw [mapGet_mapSet_self] at h
                  have hs2 : s2 = newSessionData cfg c sl tl o now a resp := by
                    injection h.symm
                  subst hs2
                  exact Or.inr ⟨rfl, rfl, rfl, rfl⟩
                · rw [mapGet_mapSet_ne _ c0 c _ hc] at h
                  exact Or.inl (mapGet_getActiveSession_snd_some st c0 c now s2
                    (mapGet_cleanup_some _ now c s2 hnd1 h))
          · rw [createSession_fresh_lowcap cfg st c0 sl tl o now tok wire hf
              (lt_of_not_le hcap)] at h
            rcases createSessionBody_cases cfg (getActiveSession st c0 now).2
                c0 sl tl o now tok wire with ⟨e, _, hst⟩ | ⟨a, resp, _, _, _, heq⟩
            · rw [hst] at h
              exact Or.inl (mapGet_getActiveSession_snd_some st c0 c now s2 h)
            · rw [heq] at h
              simp only at h
              by_cases hc : c = c0
              · subst hc
                rw [mapGet_mapSet_self] at h
                have hs2 : s2 = newSessionData cfg c sl tl o now a resp := by
                  injection h.symm
                subst hs2
                exact Or.inr ⟨rfl, rfl, rfl, rfl⟩
              · rw [mapGet_mapSet_ne _ c0 c _ hc] at h
                exact Or.inl (mapGet_getActiveSession_snd_some st c0 c now s2 h)

/-! ## Length bounds: the store never grows past maxSessions -/

theorem length_createSessionBody_le (cfg : SessionConfig) (st : Store)
    (c sl tl : String) (o : List (String × String)) (now : Int)
    (tok : Except String String) (wire : Except String SessionResponse)
    (hget : mapGet st c = none) (hlen : st.length < cfg.maxSessions) :
    (createSessionBody cfg st c sl tl o now tok wire).store.length ≤
      cfg.maxSessions := by
  rcases createSessionBody_cases cfg st c sl tl o now tok wire with
    ⟨e, _, hst⟩ | ⟨a, resp, _, _, _, heq⟩
  · rw [hst]
    exact le_of_lt hlen
  · rw [heq]
    simp only
    rw [length_mapSet_of_none st c _ hget]
    exact hlen

theorem length_createSession_store_le (cfg : SessionConfig) (st : Store)
    (c sl tl : String) (o : List (String × String)) (now : Int) (av : Bool)
    (tok : Except String String) (wire : Except String SessionResponse)
    (h : st.length ≤ cfg.maxSessions) :
    (createSession cfg st c sl tl o now av tok wire).store.length ≤
      cfg.maxSessions := by
  cases av with
  | false => rw [createSession_not_avail]; exact h
  | true =>
      cases hf : (getActiveSession st c now).1 with
      | some s =>
          rw [createSession_existing cfg st c sl tl o now tok wire s hf]
          exact h
      | none =>
          have hget : mapGet (getActiveSession st c now).2 c = none :=
            getActiveSession_fst_none_get st c now hf
          have hlen1 : (getActiveSession st c now).2.length ≤ st.length :=
            length_getActiveSession_snd_le st c now
          by_cases hcap : cfg.maxSessions ≤ (getActiveSession st c now).2.length
          · by_cases hcap2 : cfg.maxSessions ≤
                (cleanupExpiredSessions (getActiveSession st c now).2 now).length
            · rw [createSession_capacity cfg st c sl tl o now tok wire hf hcap hcap2]
              exact le_trans (length_cleanup_le _ _) (le_trans hlen1 h)
            · rw [createSession_fresh_swept cfg st c sl tl o now tok wire hf hcap
                (lt_of_not_le hcap2)]
              exact length_createSessionBody_le cfg _ c sl tl o now tok wire
                (mapGet_cleanup_none _ now c hget) (lt_of_not_le hcap2)
          · rw [createSession_fresh_lowcap cfg st c sl tl o now tok wire hf
              (lt_of_not_le hcap)]
            exact length_createSessionBody_le cfg _ c sl tl o now tok wire
              hget (lt_of_not_le hcap)

theorem length_applyOp_le (cfg : SessionConfig) (st : Store) (op : SessionOp)
    (h : st.length ≤ cfg.maxSessions) :
    (applyOp cfg st op).length ≤ cfg.maxSessions := by
  cases op with
  | create c sl tl o now av tok wire =>
      exact length_createSession_store_le cfg st c sl tl o now av tok wire h
  | stop c wire =>
      show (endSession st c wire).2.1.length ≤ cfg.maxSessions
      rcases endSession_store_cases st c wire with hm | hm
      · rw [hm]; exact h
      · rw [hm]; exact le_trans (length_mapDelete_le st c) h
  | statusQuery c now =>
      show (getSessionStatus st c now).2.length ≤ cfg.maxSessions
      rw [getSessionStatus_snd]
      exact le_trans (length_getActiveSession_snd_le st c now) h
  | listQuery now => exact h
  | readOne c now =>
      exact le_trans (length_getActiveSession_snd_le st c now) h
  | sweep now => exact le_trans (length_cleanup_le st now) h

theorem length_runOps_le (cfg : SessionConfig) (ops : List SessionOp)
    (st : Store) (h : st.length ≤ cfg.maxSessions) :
    (runOps cfg st ops).length ≤ cfg.maxSessions := by
  induction ops generalizing st with
  | nil => exact h
  | cons op rest ih => exact ih (applyOp cfg st op) (length_applyOp_le cfg st op h)

/-! ## Key uniqueness and record shape along any execution -/

theorem nodupKeys_createSession_store (cfg : SessionConfig) (st : Store)
    (c sl tl : String) (o : List (String × String)) (now : Int) (av : Bool)
    (tok : Except String String) (wire : Except String SessionResponse)
    (h : NodupKeys st) :
    NodupKeys (createSession cfg st c sl tl o now av tok wire).store := by
  cases av with
  | false => rw [createSession_not_avail]; exact h
  | true =>
      cases hf : (getActiveSession st c now).1 with
      | some s =>
          rw [createSession_existing cfg st c sl tl o now tok wire s hf]
          exact h
      | none =>
          have hnd1 : NodupKeys (getActiveSession st c now).2 :=
            nodupKeys_getActiveSession_snd st c now h
          by_cases hcap : cfg.maxSessions ≤ (getActiveSession st c now).2.length
          · by_cases hcap2 : cfg.maxSessions ≤
                (cleanupExpiredSessions (getActiveSession st c now).2 now).length
            · rw [createSession_capacity cfg st c sl tl o now tok wire hf hcap hcap2]
              exact nodupKeys_cleanup _ now hnd1
            · rw [createSession_fresh_swept cfg st c sl tl o now tok wire hf hcap
                (lt_of_not_le hcap2)]
              rcases createSessionBody_cases cfg
                  (cleanupExpiredSessions (getActiveSession st c now).2 now)
                  c sl tl o now tok wire with ⟨e, _, hst⟩ | ⟨a, resp, _, _, _, heq⟩
              · rw [hst]; exact nodupKeys_cleanup _ now hnd1
              · rw [heq]
                exact nodupKeys_mapSet _ c _ (nodupKeys_cleanup _ now hnd1)
          · rw [createSession_fresh_lowcap cfg st c sl tl o now tok wire hf
              (lt_of_not_le hcap)]
            rcases createSessionBody_cases cfg (getActiveSession st c now).2
                c sl tl o now tok wire with ⟨e, _, hst⟩ | ⟨a, resp, _, _, _, heq⟩
            · rw [hst]; exact hnd1
            · rw [heq]
              exact nodupKeys_mapSet _ c _ hnd1

theorem nodupKeys_applyOp (cfg : SessionConfig) (st : Store) (op : SessionOp)
    (h : NodupKeys st) : NodupKeys (applyOp cfg st op) := by
  cases op with
  | create c sl tl o now av tok wire =>
      exact nodupKeys_createSession_store cfg st c sl tl o now av tok wire h
  | stop c wire =>
      show NodupKeys (endSession st c wire).2.1
      rcases endSession_store_cases st c wire with hm | hm
      · rw [hm]; exact h
      · rw [hm]; exact nodupKeys_mapDelete st c h
  | statusQuery c now =>
      show NodupKeys (getSessionStatus st c now).2
      rw [getSessionStatus_snd]
      exact nodupKeys_getActiveSession_snd st c now h
  | listQuery now => exact h
  | readOne c now => exact nodupKeys_getActiveSession_snd st c now h
  | sweep now => exact nodupKeys_cleanup st now h

theorem mem_getActiveSession_snd (st : Store) (c0 : String) (now : Int)
    (p : String × SessionData) (hp : p ∈ (getActiveSession st c0 now).2) :
    p ∈ st := by
  rcases getActiveSession_snd_cases st c0 now with hm | hm
  · rwa [hm] at hp
  · rw [hm] at hp
    exact mem_mapDelete st c0 p hp

theorem mem_createSession_store (cfg : SessionConfig) (st : Store)
    (c sl tl : String) (o : List (String × String)) (now : Int) (av : Bool)
    (tok : Except String String) (wire : Except String SessionResponse)
    (p : String × SessionData)
    (hp : p ∈ (createSession cfg st c sl tl o now av tok wire).store) :
    p ∈ st ∨ (p.2.status = "active" ∧ p.2.createdAt = now ∧
      p.2.expiresAt = now + cfg.cacheTimeout) := by
  cases av with
  | false =>
      rw [createSession_not_avail] at hp
      exact Or.inl hp
  | true =>
      cases hf : (getActiveSession st c now).1 with
      | some s =>
          rw [createSession_existing cfg st c sl tl o now tok wire s hf] at hp
          exact Or.inl hp
      | none =>
          by_cases hcap : cfg.maxSessions ≤ (getActiveSession st c now).2.length
          · by_cases hcap2 : cfg.maxSessions ≤
                (cleanupExpiredSessions (getActiveSession st c now).2 now).length
            · rw [createSession_capacity cfg st c sl tl o now tok wire hf hcap hcap2] at hp
              exact Or.inl (mem_getActiveSession_snd st c now p
                (mem_cleanup _ now p hp))
            · rw [createSession_fresh_swept cfg st c sl tl o now tok wire hf hcap
                (lt_of_not_le hcap2)] at hp
              rcases createSessionBody_cases cfg
                  (cleanupExpiredSessions (getActiveSession st c now).2 now)
                  c sl tl o now tok wire with ⟨e, _, hst⟩ | ⟨a, resp, _, _, _, heq⟩
              · rw [hst] at hp
                exact Or.inl (mem_getActiveSession_snd st c now p
                  (mem_cleanup _ now p hp))
              · rw [heq] at hp
                simp only at hp
                rcases mem_mapSet _ c _ p hp with h2 | h2
                · exact Or.inl (mem_getActiveSession_snd st c now p
                    (mem_cleanup _ now p h2))
                · rw [h2]
                  exact Or.inr ⟨rfl, rfl, rfl⟩
          · rw [createSession_fresh_lowcap cfg st c sl tl o now tok wire hf
              (lt_of_not_le hcap)] at hp
            rcases createSessionBody_cases cfg (getActiveSession st c now).2
                c sl tl o now tok wire with ⟨e, _, hst⟩ | ⟨a, resp, _, _, _, heq⟩
            · rw [hst] at hp
              exact Or.inl (mem_getActiveSession_snd st c now p hp)
            · rw [heq] at hp
              simp only at hp
              rcases mem_mapSet _ c _ p hp with h2 | h2
              · exact Or.inl (mem_getActiveSession_snd st c now p h2)
              · rw [h2]
                exact Or.inr ⟨rfl, rfl, rfl⟩

theorem storeWF_applyOp (cfg : SessionConfig) (st : Store) (op : SessionOp)
    (h : StoreWF cfg st) : StoreWF cfg (applyOp cfg st op) := by
  cases op with
  | create c sl tl o now av tok wire =>
      intro p hp
      rcases mem_createSession_store cfg st c sl tl o now av tok wire p hp with
        h2 | ⟨hs, hc, he⟩
      · exact h p h2
      · exact ⟨hs, by rw [he, hc]⟩
  | stop c wire =>
      intro p hp
      have hp2 : p ∈ (endSession st c wire).2.1 := hp
      rcases endSession_store_cases st c wire with hm | hm
      · rw [hm] at hp2; exact h p hp2
      · rw [hm] at hp2; exact h p (mem_mapDelete st c p hp2)
  | statusQuery c now =>
      intro p hp
      have hp2 : p ∈ (getSessionStatus st c now).2 := hp
      rw [getSessionStatus_snd] at hp2
      exact h p (mem_getActiveSession_snd st c now p hp2)
  | listQuery now => exact h
  | readOne c now =>
      intro p hp
      exact h p (mem_getActiveSession_snd st c now p hp)
  | sweep now =>
      intro p hp
      exact h p (mem_cleanup st now p hp)

theorem storeWF_runOps (cfg : SessionConfig) (ops : List SessionOp)
    (st : Store) (h : StoreWF cfg st) : StoreWF cfg (runOps cfg st ops) := by
  induction ops generalizing st with
  | nil => exact h
  | cons op rest ih => exact ih (applyOp cfg st op) (storeWF_applyOp cfg st op h)

theorem nodupKeys_runOps (cfg : SessionConfig) (ops : List SessionOp)
    (st : Store) (h : NodupKeys st) : NodupKeys (runOps cfg st ops) := by
  induction ops generalizing st with
  | nil => exact h
  | cons op rest ih => exact ih (applyOp cfg st op) (nodupKeys_applyOp cfg st op h)

/-! ## Lemmas about the concurrent token burst -/

theorem burstStep_ready_invalid (env : BurstEnv) (s : BurstState) (i : Nat)
    (hav : env.available = true) (hcv : cacheValid s.cache env.now = false)
    (hr : s.threads i = ThreadPhase.ready) :
    burstStep env s i =
      { cache := s.cache
        threads := fun j =>
          if j = i then ThreadPhase.waiting s.requests else s.threads j
        requests := s.requests + 1 } := by
  unfold burstStep
  rw [hr, hcv, hav]
  rfl

theorem burstRun_prologues (env : BurstEnv) (hav : env.available = true) :
    ∀ (m k : Nat) (s : BurstState),
      cacheValid s.cache env.now = false →
      (∀ j, k ≤ j → s.threads j = ThreadPhase.ready) →
      (burstRun env s (List.range' k m)).requests = s.requests + m ∧
        (burstRun env s (List.range' k m)).cache = s.cache := by
  intro m
  induction m with
  | zero =>
      intro k s _ _
      exact ⟨rfl, rfl⟩
  | succ m ih =>
      intro k s hcv hready
      rw [List.range'_succ]
      have hstep := burstStep_ready_invalid env s k hav hcv (hready k (le_refl k))
      simp only [burstRun, List.foldl_cons]
      have hready2 : ∀ j, k + 1 ≤ j →
          (burstStep env s k).threads j = ThreadPhase.ready := by
        intro j hj
        rw [hstep]
        have hne : ¬(j = k) := by omega
        simp only [hne, if_false]
        exact hready j (by omega)
      have hcv2 : cacheValid (burstStep env s k).cache env.now = false := by
        rw [hstep]
        exact hcv
      have := ih (k + 1) (burstStep env s k) hcv2 hready2
      simp only [burstRun] at this
      have hreq : (burstStep env s k).requests = s.requests + 1 := by rw [hstep]
      have hcache : (burstStep env s k).cache = s.cache := by rw [hstep]
      refine ⟨?_, ?_⟩
      · rw [this.1, hreq]
        omega
      · rw [this.2, hcache]

/-! ## Lemmas about the Agora task client -/

theorem taskGet_taskDelete_self (ts : TaskMap) (c : String) :
    taskGet (taskDelete ts c) c = none := by
  induction ts with
  | nil => rfl
  | cons p rest ih =>
      cases p with
      | mk k w =>
          by_cases h : k = c
          · simpa [taskDelete, h] using ih
          · simp only [taskDelete, h, if_false, taskGet]
            exact ih

theorem taskGet_taskDelete_ne (ts : TaskMap) (c c2 : String) (h : c2 ≠ c) :
    taskGet (taskDelete ts c) c2 = taskGet ts c2 := by
  induction ts with
  | nil => rfl
  | cons p rest ih =>
      cases p with
      | mk k w =>
          by_cases hp : k = c
          · subst hp
            have hp2 : ¬(k = c2) := h.symm
            simp only [taskDelete, if_pos rfl, taskGet, hp2, if_false]
            exact ih
          · simp only [taskDelete, hp, if_false, taskGet]
            by_cases hq : k = c2 <;> simp [hq, ih]

theorem stopTranslationTask_absent (ts : TaskMap) (c : String) (wire : StopWire)
    (h : taskGet ts c = none) :
    stopTranslationTask true ts c wire = (Except.ok false, ts, 0) := by
  unfold stopTranslationTask
  rw [h]
  rfl

theorem stopTranslationTask_present (ts : TaskMap) (c : String) (t : TaskEntry)
    (wire : StopWire) (h : taskGet ts c = some t) :
    stopTranslationTask true ts c wire =
      ((if wire = StopWire.ok then Except.ok true else Except.ok false),
       taskDelete ts c, 1) := by
  unfold stopTranslationTask
  rw [h]
  cases wire <;> rfl

theorem stopTranslationTask_tasks_cases (configured : Bool) (ts : TaskMap)
    (c : String) (wire : StopWire) :
    (stopTranslationTask configured ts c wire).2.1 = ts ∨
      (stopTranslationTask configured ts c wire).2.1 = taskDelete ts c := by
  cases configured with
  | false => exact Or.inl rfl
  | true =>
      cases hm : taskGet ts c with
      | none => rw [stopTranslationTask_absent ts c wire hm]; exact Or.inl rfl
      | some t =>
          rw [stopTranslationTask_present ts c t wire hm]
          exact Or.inr rfl

/-- No operation mutates a stored session record in place: an entry
that survives an operation under its channel is either byte-identical,
or is a freshly created session of that operation carrying the
operation's own clock reading. -/
theorem applyOp_entry_stable (cfg : SessionConfig) (st : Store) (op : SessionOp)
    (c : String) (s s2 : SessionData) (hnd : NodupKeys st)
    (h1 : mapGet st c = some s) (h2 : mapGet (applyOp cfg st op) c = some s2) :
    s2 = s ∨ (s2.createdAt = opNow op ∧
      s2.expiresAt = opNow op + cfg.cacheTimeout) := by
  have same : mapGet st c = some s2 → s2 = s := by
    intro hh
    rw [h1] at hh
    injection hh with h3
    exact h3.symm
  cases op with
  | create c0 sl tl o now av tok wire =>
      rcases mapGet_createSession_store cfg st c0 sl tl o now av tok wire c s2
        hnd h2 with hh | ⟨_, hca, hce, _⟩
      · exact Or.inl (same hh)
      · exact Or.inr ⟨hca, hce⟩
  | stop c0 wire =>
      have h2a : mapGet (endSession st c0 wire).2.1 c = some s2 := h2
      rcases endSession_store_cases st c0 wire with hm | hm
      · rw [hm] at h2a
        exact Or.inl (same h2a)
      · rw [hm] at h2a
        exact Or.inl (same (mapGet_mapDelete_some st c0 c s2 h2a))
  | statusQuery c0 now =>
      have h2a : mapGet (getSessionStatus st c0 now).2 c = some s2 := h2
      rw [getSessionStatus_snd] at h2a
      exact Or.inl (same (mapGet_getActiveSession_snd_some st c0 c now s2 h2a))
  | listQuery now => exact Or.inl (same h2)
  | readOne c0 now =>
      have h2a : mapGet (getActiveSession st c0 now).2 c = some s2 := h2
      exact Or.inl (same (mapGet_getActiveSession_snd_some st c0 c now s2 h2a))
  | sweep now =>
      have h2a : mapGet (cleanupExpiredSessions st now) c = some s2 := h2
      exact Or.inl (same (mapGet_cleanup_some st now c s2 hnd h2a))

theorem getSessionStatus_hasSession_false (st : Store) (c : String) (now : Int)
    (h : mapGet st c = none) :
    (getSessionStatus st c now).1.hasSession = false := by
  unfold getSessionStatus
  rw [getActiveSession_of_get_none st c now h]

theorem mem_activeSummaries (st : Store) (now : Int) (x : SessionSummary)
    (h : x ∈ activeSummaries st now) : now < x.expiresAt := by
  induction st with
  | nil => cases h
  | cons p rest ih =>
      cases p with
      | mk k w =>
          by_cases hl : now < w.expiresAt
          · simp only [activeSummaries, hl, if_true, List.mem_cons] at h
            rcases h with h | h
            · rw [h]
              exact hl
            · exact ih h
          · simp only [activeSummaries, hl, if_false] at h
            exact ih h

/-- Any `ok` result of `createSession` is stored under the channel. -/
theorem createSession_result_ok (cfg : SessionConfig) (st : Store)
    (c sl tl : String) (o : List (String × String)) (now : Int) (av : Bool)
    (tok : Except String String) (wire : Except String SessionResponse)
    (s : SessionData)
    (h : (createSession cfg st c sl tl o now av tok wire).result = Except.ok s) :
    mapGet (createSession cfg st c sl tl o now av tok wire).store c = some s := by
  cases av with
  | false =>
      rw [createSession_not_avail] at h
      cases h
  | true =>
      cases hf : (getActiveSession st c now).1 with
      | some sx =>
          rw [createSession_existing cfg st c sl tl o now tok wire sx hf] at h ⊢
          simp only at h ⊢
          obtain ⟨hg, _, hsnd⟩ := getActiveSession_fst_some st c now sx hf
          injection h with h3
          rw [← h3]
          exact hg
      | none =>
          by_cases hcap : cfg.maxSessions ≤ (getActiveSession st c now).2.length
          · by_cases hcap2 : cfg.maxSessions ≤
                (cleanupExpiredSessions (getActiveSession st c now).2 now).length
            · rw [createSession_capacity cfg st c sl tl o now tok wire hf hcap hcap2] at h
              cases h
            · rw [createSession_fresh_swept cfg st c sl tl o now tok wire hf hcap
                (lt_of_not_le hcap2)] at h ⊢
              rcases createSessionBody_cases cfg
                  (cleanupExpiredSessions (getActiveSession st c now).2 now)
                  c sl tl o now tok wire with ⟨e, hres, _⟩ | ⟨a, resp, _, _, _, heq⟩
              · rw [hres] at h
                cases h
              · rw [heq] at h ⊢
                simp only at h ⊢
                injection h with h3
                rw [← h3]
                exact mapGet_mapSet_self _ c _
          · rw [createSession_fresh_lowcap cfg st c sl tl o now tok wire hf
              (lt_of_not_le hcap)] at h ⊢
            rcases createSessionBody_cases cfg (getActiveSession st c now).2
                c sl tl o now tok wire with ⟨e, hres, _⟩ | ⟨a, resp, _, _, _, heq⟩
            · rw [hres] at h
              cases h
            · rw [heq] at h ⊢
              simp only at h ⊢
              injection h with h3
              rw [← h3]
              exact mapGet_mapSet_self _ c _

/-- A successful start with no pre-existing active session always
returns the freshly built record: active status, clock reading as
creation time, expiry one TTL later. -/
theorem createSession_fresh_ok (cfg : SessionConfig) (st : Store)
    (c sl tl : String) (o : List (String × String)) (now : Int) (av : Bool)
    (tok : Except String String) (wire : Except String SessionResponse)
    (s : SessionData) (hf : (getActiveSession st c now).1 = none)
    (h : (createSession cfg st c sl tl o now av tok wire).result = Except.ok s) :
    s.status = "active" ∧ s.createdAt = now ∧
      s.expiresAt = now + cfg.cacheTimeout := by
  cases av with
  | false =>
      rw [createSession_not_avail] at h
      cases h
  | true =>
      have step : ∀ st2 : Store,
          (createSessionBody cfg st2 c sl tl o now tok wire).result =
            Except.ok s →
          s.status = "active" ∧ s.createdAt = now ∧
            s.expiresAt = now + cfg.cacheTimeout := by
        intro st2 hb
        rcases createSessionBody_cases cfg st2 c sl tl o now tok wire with
          ⟨e, hres, _⟩ | ⟨a, resp, _, _, _, heq⟩
        · rw [hres] at hb
          cases hb
        · rw [heq] at hb
          simp only at hb
          injection hb with h3
          rw [← h3]
          exact ⟨rfl, rfl, rfl⟩
      by_cases hcap : cfg.maxSessions ≤ (getActiveSession st c now).2.length
      · by_cases hcap2 : cfg.maxSessions ≤
            (cleanupExpiredSessions (getActiveSession st c now).2 now).length
        · rw [createSession_capacity cfg st c sl tl o now tok wire hf hcap hcap2] at h
          cases h
        · rw [createSession_fresh_swept cfg st c sl tl o now tok wire hf hcap
            (lt_of_not_le hcap2)] at h
          exact step _ h
      · rw [createSession_fresh_lowcap cfg st c sl tl o now tok wire hf
          (lt_of_not_le hcap)] at h
        exact step _ h

/-! ## Claim theorems -/

/-- C2: start is idempotent over an active session.  If a first
`createSession` call for a channel succeeded with session `s`, then a
second call for the same channel made while `s` is still unexpired
returns that very session (hence the same `sessionId`), issues zero
provider start calls, and leaves the store unchanged, whatever
languages, options or oracle outcomes the second call carries. -/
theorem c2_idempotent_start (cfg : SessionConfig) (st : Store)
    (c sl tl sl2 tl2 : String) (o o2 : List (String × String))
    (now now2 : Int) (av : Bool) (tok tok2 : Except String String)
    (wire wire2 : Except String SessionResponse) (s : SessionData)
    (h1 : (createSession cfg st c sl tl o now av tok wire).result = Except.ok s)
    (h2 : now2 < s.expiresAt) :
    createSession cfg (createSession cfg st c sl tl o now av tok wire).store
        c sl2 tl2 o2 now2 true tok2 wire2 =
      { result := Except.ok s
        store := (createSession cfg st c sl tl o now av tok wire).store
        providerCalls := 0 } := by
  have hget := createSession_result_ok cfg st c sl tl o now av tok wire s h1
  have hlive := getActiveSession_of_live
    (createSession cfg st c sl tl o now av tok wire).store c now2 s hget h2
  have hf : (getActiveSession
      (createSession cfg st c sl tl o now av tok wire).store c now2).1 = some s := by
    rw [hlive]
  have := createSession_existing cfg
    (createSession cfg st c sl tl o now av tok wire).store
    c sl2 tl2 o2 now2 tok2 wire2 s hf
  rw [this]

theorem c2_idempotent_start_witness :
    createSession sampleCfg
        (createSession sampleCfg [] "room1" "en" "es" [] 0 true
          (Except.ok "at") (Except.ok sampleResponse)).store
        "room1" "fr" "de" [] 1 true (Except.error "tok2") (Except.error "prov2") =
      { result := Except.ok
          (newSessionData sampleCfg "room1" "en" "es" [] 0 "at" sampleResponse)
        store := (createSession sampleCfg [] "room1" "en" "es" [] 0 true
          (Except.ok "at") (Except.ok sampleResponse)).store
        providerCalls := 0 } :=
  c2_idempotent_start sampleCfg [] "room1" "en" "es" "fr" "de" [] [] 0 1 true
    (Except.ok "at") (Except.error "tok2") (Except.ok sampleResponse)
    (Except.error "prov2")
    (newSessionData sampleCfg "room1" "en" "es" [] 0 "at" sampleResponse)
    rfl (by decide)

/-- C3: for a stored session, stop removes the local record whether the
provider delete succeeds or fails (the boolean only reports the
provider outcome); stopping an absent channel returns the not-found
result `false` with no provider call and no state change, so a second
stop is a state no-op. -/
theorem c3_stop_cleanup (st : Store) (c : String)
    (wire wire2 : Except String Unit) :
    (mapGet st c = none → endSession st c wire = (false, st, 0)) ∧
    (∀ s, mapGet st c = some s →
      (endSession st c wire).2.1 = mapDelete st c ∧
      mapGet (endSession st c wire).2.1 c = none ∧
      (endSession st c wire).2.2 = 1 ∧
      endSession (endSession st c wire).2.1 c wire2 =
        (false, (endSession st c wire).2.1, 0)) := by
  constructor
  · intro h
    exact endSession_absent st c wire h
  · intro s hm
    have hstore : (endSession st c wire).2.1 = mapDelete st c := by
      cases wire with
      | ok u => cases u; rw [endSession_present_ok st c s hm]
      | error e => rw [endSession_present_error st c s e hm]
    have hcalls : (endSession st c wire).2.2 = 1 := by
      cases wire with
      | ok u => cases u; rw [endSession_present_ok st c s hm]
      | error e => rw [endSession_present_error st c s e hm]
    have hnone : mapGet (endSession st c wire).2.1 c = none := by
      rw [hstore]
      exact mapGet_mapDelete_self st c
    exact ⟨hstore, hnone, hcalls, endSession_absent _ c wire2 hnone⟩

theorem c3_stop_cleanup_witness :
    (endSession expiredStore "room1" (Except.error "prov down")).2.1 =
      mapDelete expiredStore "room1" ∧
    mapGet (endSession expiredStore "room1" (Except.error "prov down")).2.1
      "room1" = none ∧
    (endSession expiredStore "room1" (Except.error "prov down")).2.2 = 1 ∧
    endSession (endSession expiredStore "room1" (Except.error "prov down")).2.1
        "room1" (Except.ok ()) =
      (false, (endSession expiredStore "room1" (Except.error "prov down")).2.1, 0) :=
  (c3_stop_cleanup expiredStore "room1" (Except.error "prov down")
    (Except.ok ())).2 sampleSession rfl

/-- C4: when the provider start call fails, the wrapped provider error
is thrown to the caller, exactly one provider call was made, and no
session for the channel persists: a status query reports
`hasSession = false`. -/
theorem c4_provider_failure_no_session (cfg : SessionConfig) (st : Store)
    (c sl tl : String) (o : List (String × String)) (now : Int)
    (a e : String)
    (h1 : (getActiveSession st c now).1 = none)
    (h2 : cfg.maxSessions ≤ (getActiveSession st c now).2.length →
      (cleanupExpiredSessions (getActiveSession st c now).2 now).length <
        cfg.maxSessions) :
    (createSession cfg st c sl tl o now true (Except.ok a)
        (Except.error e)).result =
      Except.error ("Session creation failed: " ++ e) ∧
    (createSession cfg st c sl tl o now true (Except.ok a)
        (Except.error e)).providerCalls = 1 ∧
    mapGet (createSession cfg st c sl tl o now true (Except.ok a)
        (Except.error e)).store c = none ∧
    (getSessionStatus (createSession cfg st c sl tl o now true (Except.ok a)
        (Except.error e)).store c now).1.hasSession = false := by
  have hget : mapGet (getActiveSession st c now).2 c = none :=
    getActiveSession_fst_none_get st c now h1
  by_cases hcap : cfg.maxSessions ≤ (getActiveSession st c now).2.length
  · rw [createSession_fresh_swept cfg st c sl tl o now (Except.ok a)
      (Except.error e) h1 hcap (h2 hcap)]
    rw [createSessionBody_provider_error]
    have hnone := mapGet_cleanup_none (getActiveSession st c now).2 now c hget
    exact ⟨rfl, rfl, hnone, getSessionStatus_hasSession_false _ c now hnone⟩
  · rw [createSession_fresh_lowcap cfg st c sl tl o now (Except.ok a)
      (Except.error e) h1 (lt_of_not_le hcap)]
    rw [createSessionBody_provider_error]
    exact ⟨rfl, rfl, hget, getSessionStatus_hasSession_false _ c now hget⟩

theorem c4_provider_failure_no_session_witness :
    (createSession sampleCfg [] "room1" "en" "es" [] 0 true (Except.ok "at")
        (Except.error "provider 500")).result =
      Except.error ("Session creation failed: " ++ "provider 500") ∧
    (createSession sampleCfg [] "room1" "en" "es" [] 0 true (Except.ok "at")
        (Except.error "provider 500")).providerCalls = 1 ∧
    mapGet (createSession sampleCfg [] "room1" "en" "es" [] 0 true
        (Except.ok "at") (Except.error "provider 500")).store "room1" = none ∧
    (getSessionStatus (createSession sampleCfg [] "room1" "en" "es" [] 0 true
        (Except.ok "at") (Except.error "provider 500")).store "room1"
        0).1.hasSession = false :=
  c4_provider_failure_no_session sampleCfg [] "room1" "en" "es" [] 0
    "at" "provider 500" rfl (fun h => absurd h (by decide))

/-- C10: stopping channel `c` is frame-preserving: for any other
channel `c2`, both the session-store entry (under `endSession`) and
the Agora task entry (under `stopTranslationTask`) of `c2` are exactly
what they were before, in every branch (absent channel, provider
success, provider failure). -/
theorem c10_stop_frame (st : Store) (c c2 : String)
    (w : Except String Unit) (configured : Bool) (ts : TaskMap)
    (wire : StopWire) (h : c2 ≠ c) :
    mapGet (endSession st c w).2.1 c2 = mapGet st c2 ∧
    taskGet (stopTranslationTask configured ts c wire).2.1 c2 = taskGet ts c2 := by
  constructor
  · rcases endSession_store_cases st c w with hm | hm
    · rw [hm]
    · rw [hm]
      exact mapGet_mapDelete_ne st c c2 h
  · rcases stopTranslationTask_tasks_cases configured ts c wire with hm | hm
    · rw [hm]
    · rw [hm]
      exact taskGet_taskDelete_ne ts c c2 h

theorem c10_stop_frame_witness :
    mapGet (endSession expiredStore "room1" (Except.error "down")).2.1 "room2" =
      mapGet expiredStore "room2" ∧
    taskGet (stopTranslationTask true sampleTaskMap "room1"
        StopWire.notFound).2.1 "room2" = taskGet sampleTaskMap "room2" :=
  c10_stop_frame expiredStore "room1" "room2" (Except.error "down") true
    sampleTaskMap StopWire.notFound (by decide)

/-- C5 counterexample: `getAllActiveSessions` run at instant 2000 over
a store whose only session expired at 1000 excludes the session from
its output, yet hands the store back unchanged — the expired record is
still stored afterwards, so the listing pass does not evict, contrary
to the claim that both read operations evict expired sessions they
encounter. -/
theorem c5_list_no_evict_counterexample :
    (getAllActiveSessions expiredStore 2000).1 = [] ∧
    (getAllActiveSessions expiredStore 2000).2 = expiredStore ∧
    mapGet (getAllActiveSessions expiredStore 2000).2 "room1" =
      some sampleSession ∧
    (2000 : Int) ≥ sampleSession.expiresAt :=
  ⟨rfl, rfl, rfl, by decide⟩

/-- C5 amended: neither read returns an expired session — `get` evicts
an expired entry as a side effect of the read and reports absence,
while `list` merely excludes expired entries from its output and
returns the store unchanged (eviction of those entries is left to
`get` or the sweep). -/
theorem c5_lazy_expiry (st : Store) (c : String) (now : Int) :
    (∀ s, (getActiveSession st c now).1 = some s → now < s.expiresAt) ∧
    (∀ s, mapGet st c = some s → now ≥ s.expiresAt →
      getActiveSession st c now = (none, mapDelete st c) ∧
      mapGet (mapDelete st c) c = none) ∧
    (getAllActiveSessions st now).2 = st ∧
    (∀ x, x ∈ (getAllActiveSessions st now).1 → now < x.expiresAt) := by
  refine ⟨?_, ?_, rfl, ?_⟩
  · intro s hs
    exact (getActiveSession_fst_some st c now s hs).2.1
  · intro s hm he
    exact ⟨getActiveSession_of_expired st c now s hm he,
      mapGet_mapDelete_self st c⟩
  · intro x hx
    exact mem_activeSummaries st now x hx

theorem c5_lazy_expiry_witness :
    getActiveSession expiredStore "room1" 2000 =
      (none, mapDelete expiredStore "room1") ∧
    mapGet (mapDelete expiredStore "room1") "room1" = none :=
  (c5_lazy_expiry expiredStore "room1" 2000).2.1 sampleSession rfl (by decide)

/-- C7 counterexample: with a cached token whose stored expiry is
1000000 and the clock at 900000, the claim's guard
`now < expiresAt - safetyMargin` is false (900000 is not below
700000), so the claim demands an outbound token request; the code
instead finds its own guard `now < tokenExpiry` true and returns the
cached token with zero outbound requests — even while the wire is
down. -/
theorem c7_double_margin_counterexample :
    specCacheFresh staleWindowCache 900000 = false ∧
    getValidToken staleWindowCache 900000 true (Except.error "network down") =
      { result := Except.ok "tok", state := staleWindowCache, requests := 0 } :=
  ⟨by decide, rfl⟩

/-- C7 amended: the freshness guard compares the clock against the
stored expiry directly — the five-minute safety margin is applied once,
when the expiry is cached (`expiresAt = now + expires_in * 1000 -
safetyMargin`), not a second time at read.  On a cache hit the token
returns with no outbound request and no state change; otherwise one
request is issued: on success the new token is cached with the
margin-adjusted expiry, on failure the cache is left untouched and the
wrapped error is thrown. -/
theorem c7_token_cache (st : OAuthState) (now : Int)
    (wire : Except String TokenResponse) :
    (cacheValid st now = true →
      getValidToken st now true wire =
        { result := Except.ok (st.cachedToken.getD "")
          state := st, requests := 0 }) ∧
    (cacheValid st now = false →
      (∀ r, wire = Except.ok r → ¬(r.access_token = "") →
        getValidToken st now true wire =
          { result := Except.ok r.access_token
            state := { cachedToken := some r.access_token
                       tokenExpiry := some (now + r.expires_in * 1000 - safetyMargin) }
            requests := 1 }) ∧
      (∀ e, wire = Except.error e →
        getValidToken st now true wire =
          { result := Except.error ("OAuth token request failed: " ++ e)
            state := st, requests := 1 })) := by
  constructor
  · intro hv
    unfold getValidToken
    rw [hv]
    rfl
  · intro hv
    constructor
    · intro r hw hid
      subst hw
      unfold getValidToken
      rw [hv]
      simp only [Bool.false_eq_true, if_false]
      unfold requestNewToken
      simp [hid]
    · intro e hw
      subst hw
      unfold getValidToken
      rw [hv]
      rfl

theorem c7_token_cache_witness :
    getValidToken OAuthState.initial 0 true (Except.ok ⟨"fresh", 3600⟩) =
      { result := Except.ok "fresh"
        state := { cachedToken := some "fresh"
                   tokenExpiry := some (0 + 3600 * 1000 - safetyMargin) }
        requests := 1 } :=
  ((c7_token_cache OAuthState.initial 0 (Except.ok ⟨"fresh", 3600⟩)).2 rfl).1
    ⟨"fresh", 3600⟩ rfl (by decide)

/-- C9 counterexample: with a stored task for the channel, a
provider-side "task not found" outcome (an HTTP 404, which `axios`
raises as an error) makes `stopTranslationTask` return `false` after
its best-effort local cleanup — not the success value `true` the claim
requires. -/
theorem c9_not_found_counterexample :
    stopTranslationTask true sampleTaskMap "room1" StopWire.notFound =
      (Except.ok false, [], 1) := rfl

/-- C9 amended: `stopTranslationTask` returns a boolean; only a
successful provider delete yields `true`.  Every provider error,
"task not found" included, yields `false` — though the local task
entry is removed in both cases — and a channel with no stored task
yields `false` with no provider call at all. -/
theorem c9_stop_boolean (ts : TaskMap) (c : String) (m : String)
    (wire : StopWire) :
    (taskGet ts c = none →
      stopTranslationTask true ts c wire = (Except.ok false, ts, 0)) ∧
    (∀ t, taskGet ts c = some t →
      stopTranslationTask true ts c StopWire.ok =
        (Except.ok true, taskDelete ts c, 1) ∧
      stopTranslationTask true ts c StopWire.notFound =
        (Except.ok false, taskDelete ts c, 1) ∧
      stopTranslationTask true ts c (StopWire.failure m) =
        (Except.ok false, taskDelete ts c, 1)) := by
  constructor
  · intro h
    exact stopTranslationTask_absent ts c wire h
  · intro t hm
    refine ⟨?_, ?_, ?_⟩
    · rw [stopTranslationTask_present ts c t StopWire.ok hm]
      rfl
    · rw [stopTranslationTask_present ts c t StopWire.notFound hm]
      rfl
    · rw [stopTranslationTask_present ts c t (StopWire.failure m) hm]
      rfl

theorem c9_stop_boolean_witness :
    stopTranslationTask true sampleTaskMap "room1" StopWire.ok =
      (Except.ok true, taskDelete sampleTaskMap "room1", 1) ∧
    stopTranslationTask true sampleTaskMap "room1" StopWire.notFound =
      (Except.ok false, taskDelete sampleTaskMap "room1", 1) ∧
    stopTranslationTask true sampleTaskMap "room1" (StopWire.failure "500") =
      (Except.ok false, taskDelete sampleTaskMap "room1", 1) :=
  (c9_stop_boolean sampleTaskMap "room1" "500" StopWire.ok).2 sampleTask rfl

/-- C1 counterexample: two concurrent `getValidToken` calls against an
empty cache, interleaved so that both cache checks run before either
response arrives (schedule 0, 1, 0, 1), issue two outbound token
requests — not one — and the two callers end with the results of two
different refreshes (`tokA` and `tokB`), so they did not share a
single in-flight refresh. -/
theorem c1_two_refreshes_counterexample :
    (burstRun burstEnvAB (burstInit OAuthState.initial 2) [0, 1, 0, 1]).requests
      = 2 ∧
    (burstRun burstEnvAB (burstInit OAuthState.initial 2) [0, 1, 0, 1]).threads 0
      = ThreadPhase.done (Except.ok "tokA") ∧
    (burstRun burstEnvAB (burstInit OAuthState.initial 2) [0, 1, 0, 1]).threads 1
      = ThreadPhase.done (Except.ok "tokB") :=
  ⟨rfl, rfl, rfl⟩

/-- C1 amended: the token refresh has no single-flight de-duplication.
In a burst of `n` concurrent `getValidToken` calls whose cache checks
all run while the cached token is absent or expired (before any
response arrives), every call issues its own outbound token request:
`n` requests in total, one per caller. -/
theorem c1_no_single_flight (env : BurstEnv) (cache : OAuthState) (n : Nat)
    (hav : env.available = true)
    (hcv : cacheValid cache env.now = false) :
    (burstRun env (burstInit cache n) (List.range n)).requests = n := by
  rw [List.range_eq_range']
  have h := (burstRun_prologues env hav n 0 (burstInit cache n) hcv
    (fun _ _ => rfl)).1
  rw [h]
  show 0 + n = n
  omega

theorem c1_no_single_flight_witness :
    (burstRun burstEnvAB (burstInit OAuthState.initial 3)
      (List.range 3)).requests = 3 :=
  c1_no_single_flight burstEnvAB OAuthState.initial 3 rfl rfl

/-- C6: capacity is enforced.  (a) Along any execution from the empty
store, the number of non-expired sessions never exceeds
`maxSessions`.  (b) A start that finds the store at or above the
maximum first runs the eviction sweep synchronously, and rejects with
the capacity error (making no provider call) exactly when the sweep
leaves the count at the maximum; when the sweep frees a slot the start
proceeds normally.  (c) Once one stored session has expired, a start
for a fresh channel at a full store succeeds, and (d) after an
explicit stop frees a slot, a start for a fresh channel succeeds as
well. -/
theorem c6_capacity_bound (cfg : SessionConfig) :
    (∀ (ops : List SessionOp) (now : Int),
      countActive (runOps cfg [] ops) now ≤ cfg.maxSessions) ∧
    (∀ (st : Store) (c sl tl : String) (o : List (String × String)) (now : Int)
      (tok : Except String String) (wire : Except String SessionResponse),
      (getActiveSession st c now).1 = none →
      cfg.maxSessions ≤ (getActiveSession st c now).2.length →
      ((cfg.maxSessions ≤
          (cleanupExpiredSessions (getActiveSession st c now).2 now).length →
        createSession cfg st c sl tl o now true tok wire =
          { result := Except.error
              "Session creation failed: Maximum number of active sessions reached"
            store := cleanupExpiredSessions (getActiveSession st c now).2 now
            providerCalls := 0 }) ∧
       ((cleanupExpiredSessions (getActiveSession st c now).2 now).length <
          cfg.maxSessions →
        createSession cfg st c sl tl o now true tok wire =
          createSessionBody cfg
            (cleanupExpiredSessions (getActiveSession st c now).2 now)
            c sl tl o now tok wire))) ∧
    (∀ (st : Store) (c sl tl : String) (o : List (String × String)) (now : Int)
      (a : String) (resp : SessionResponse) (p : String × SessionData),
      mapGet st c = none → p ∈ st → now ≥ p.2.expiresAt →
      st.length = cfg.maxSessions → ¬(resp.session_id = "") →
      (createSession cfg st c sl tl o now true (Except.ok a)
          (Except.ok resp)).result =
        Except.ok (newSessionData cfg c sl tl o now a resp)) ∧
    (∀ (st : Store) (c0 c sl tl : String) (o : List (String × String))
      (now : Int) (w : Except String Unit) (s0 : SessionData) (a : String)
      (resp : SessionResponse),
      mapGet st c0 = some s0 → st.length ≤ cfg.maxSessions →
      mapGet (endSession st c0 w).2.1 c = none → ¬(resp.session_id = "") →
      (createSession cfg (endSession st c0 w).2.1 c sl tl o now true
          (Except.ok a) (Except.ok resp)).result =
        Except.ok (newSessionData cfg c sl tl o now a resp)) := by
  refine ⟨?_, ?_, ?_, ?_⟩
  · intro ops now
    calc countActive (runOps cfg [] ops) now
        ≤ (runOps cfg [] ops).length := List.length_filter_le _ _
      _ ≤ cfg.maxSessions := length_runOps_le cfg ops [] (Nat.zero_le _)
  · intro st c sl tl o now tok wire hf hcap
    exact ⟨fun hcap2 =>
        createSession_capacity cfg st c sl tl o now tok wire hf hcap hcap2,
      fun hlt =>
        createSession_fresh_swept cfg st c sl tl o now tok wire hf hcap hlt⟩
  · intro st c sl tl o now a resp p hget hmem hexp hlen hid
    have hsnd : getActiveSession st c now = (none, st) :=
      getActiveSession_of_get_none st c now hget
    have hf : (getActiveSession st c now).1 = none := by rw [hsnd]
    have h2snd : (getActiveSession st c now).2 = st := by rw [hsnd]
    have hcap : cfg.maxSessions ≤ (getActiveSession st c now).2.length := by
      rw [h2snd, hlen]
    have hlt : (cleanupExpiredSessions (getActiveSession st c now).2 now).length <
        cfg.maxSessions := by
      rw [h2snd, ← hlen]
      exact length_cleanup_lt st now p hmem hexp
    rw [createSession_fresh_swept cfg st c sl tl o now (Except.ok a)
      (Except.ok resp) hf hcap hlt]
    rw [createSessionBody_ok cfg _ c sl tl o now a resp hid]
  · intro st c0 c sl tl o now w s0 a resp hm hlen hnone hid
    have hst2 : (endSession st c0 w).2.1 = mapDelete st c0 := by
      cases w with
      | ok u => cases u; rw [endSession_present_ok st c0 s0 hm]
      | error e => rw [endSession_present_error st c0 s0 e hm]
    have hsnd : getActiveSession (endSession st c0 w).2.1 c now =
        (none, (endSession st c0 w).2.1) :=
      getActiveSession_of_get_none _ c now hnone
    have hf : (getActiveSession (endSession st c0 w).2.1 c now).1 = none := by
      rw [hsnd]
    have hlt : (getActiveSession (endSession st c0 w).2.1 c now).2.length <
        cfg.maxSessions := by
      rw [hsnd]
      show (endSession st c0 w).2.1.length < cfg.maxSessions
      rw [hst2]
      exact lt_of_lt_of_le (length_mapDelete_lt st c0 s0 hm) hlen
    rw [createSession_fresh_lowcap cfg _ c sl tl o now (Except.ok a)
      (Except.ok resp) hf hlt]
    rw [createSessionBody_ok cfg _ c sl tl o now a resp hid]

theorem c6_capacity_bound_witness :
    (createSession tinyCfg expiredStore "room2" "en" "es" [] 2000 true
        (Except.ok "at") (Except.ok sampleResponse)).result =
      Except.ok (newSessionData tinyCfg "room2" "en" "es" [] 2000 "at"
        sampleResponse) :=
  (c6_capacity_bound tinyCfg).2.2.1 expiredStore "room2" "en" "es" [] 2000
    "at" sampleResponse ("room1", sampleSession) rfl (by decide) (by decide)
    (by decide) (by decide)

/-- C8: immediately after a successful fresh start, the stored session
has status `active`, `createdAt` equal to the operation's clock
reading and `expiresAt = createdAt + cacheTimeout`, and (for a
positive TTL) `getActiveSession` returns exactly that record.
Moreover no operation ever rewrites a stored record in place — an
entry surviving an operation under its channel is unchanged unless it
is the operation's own freshly created session — and every record in
any store reachable from the empty map satisfies
`expiresAt = createdAt + cacheTimeout`. -/
theorem c8_fresh_expiry_window (cfg : SessionConfig) :
    (∀ (st : Store) (c sl tl : String) (o : List (String × String)) (now : Int)
      (av : Bool) (tok : Except String String)
      (wire : Except String SessionResponse) (s : SessionData),
      (getActiveSession st c now).1 = none →
      (createSession cfg st c sl tl o now av tok wire).result = Except.ok s →
      s.status = "active" ∧ s.createdAt = now ∧
        s.expiresAt = s.createdAt + cfg.cacheTimeout ∧
        (0 < cfg.cacheTimeout →
          getActiveSession
              (createSession cfg st c sl tl o now av tok wire).store c now =
            (some s, (createSession cfg st c sl tl o now av tok wire).store))) ∧
    (∀ (st : Store) (op : SessionOp) (c : String) (s s2 : SessionData),
      NodupKeys st → mapGet st c = some s →
      mapGet (applyOp cfg st op) c = some s2 →
      s2 = s ∨ (s2.createdAt = opNow op ∧
        s2.expiresAt = s2.createdAt + cfg.cacheTimeout)) ∧
    (∀ (ops : List SessionOp) (c : String) (s : SessionData),
      mapGet (runOps cfg [] ops) c = some s →
      s.status = "active" ∧ s.expiresAt = s.createdAt + cfg.cacheTimeout) := by
  refine ⟨?_, ?_, ?_⟩
  · intro st c sl tl o now av tok wire s hf h
    obtain ⟨hs, hc, he⟩ :=
      createSession_fresh_ok cfg st c sl tl o now av tok wire s hf h
    have hget := createSession_result_ok cfg st c sl tl o now av tok wire s h
    refine ⟨hs, hc, by rw [he, hc], ?_⟩
    intro httl
    have hlive : now < s.expiresAt := by
      rw [he]
      exact lt_add_of_pos_right now httl
    exact getActiveSession_of_live _ c now s hget hlive
  · intro st op c s s2 hnd h1 h2
    rcases applyOp_entry_stable cfg st op c s s2 hnd h1 h2 with h3 | ⟨hca, hce⟩
    · exact Or.inl h3
    · exact Or.inr ⟨hca, by rw [hce, hca]⟩
  · intro ops c s h
    have hwf : StoreWF cfg (runOps cfg [] ops) :=
      storeWF_runOps cfg ops [] (fun p hp => absurd hp (List.not_mem_nil p))
    exact hwf (c, s) (mapGet_mem (runOps cfg [] ops) c s h)

theorem c8_fresh_expiry_window_witness :
    (newSessionData sampleCfg "room1" "en" "es" [] 0 "at"
        sampleResponse).status = "active" ∧
    (newSessionData sampleCfg "room1" "en" "es" [] 0 "at"
        sampleResponse).createdAt = 0 ∧
    (newSessionData sampleCfg "room1" "en" "es" [] 0 "at"
        sampleResponse).expiresAt =
      (newSessionData sampleCfg "room1" "en" "es" [] 0 "at"
        sampleResponse).createdAt + sampleCfg.cacheTimeout ∧
    (0 < sampleCfg.cacheTimeout →
      getActiveSession
          (createSession sampleCfg [] "room1" "en" "es" [] 0 true
            (Except.ok "at") (Except.ok sampleResponse)).store "room1" 0 =
        (some (newSessionData sampleCfg "room1" "en" "es" [] 0 "at"
            sampleResponse),
         (createSession sampleCfg [] "room1" "en" "es" [] 0 true
            (Except.ok "at") (Except.ok sampleResponse)).store)) :=
  (c8_fresh_expiry_window sampleCfg).1 [] "room1" "en" "es" [] 0 true
    (Except.ok "at") (Except.ok sampleResponse)
    (newSessionData sampleCfg "room1" "en" "es" [] 0 "at" sampleResponse)
    rfl rfl

end Falavox
